import Mathlib

/-!
Verification of the ZhaiYao audio ingestion and transcription pipeline.

The definitions below are a shallow embedding of the TypeScript source of
the repository: the transcription route (orchestrator, OSS request signing,
media transcoding and segmentation wrappers, bounded-concurrency dispatcher,
upload-history recording) and the trial-summarize route (local fallback
summary).  External effects (network calls, subprocesses, the database) are
modelled by explicit outcome parameters; the functions themselves follow the
source line by line.
-/

/-! ## Generic helpers shared by several routes -/

/-- JavaScript `Array.prototype.join(sep)`: the empty list joins to the empty
string and a singleton joins to its element. -/
def joinSep (sep : String) : List String → String
  | [] => ""
  | [x] => x
  | x :: y :: xs => x ++ sep ++ joinSep sep (y :: xs)

/-- Lexicographic comparison of character lists by code point, as JS
compares strings (the strings involved are ASCII, where UTF-16 code-unit
order and code-point order agree). -/
def charListLE : List Char → List Char → Bool
  | [], _ => true
  | _ :: _, [] => false
  | a :: as, b :: bs => if a = b then charListLE as bs else decide (a < b)

def strLE (a b : String) : Bool := charListLE a.data b.data

/-- Insertion of a string into a sorted list, for modelling JS
`Array.prototype.sort()` (default lexicographic comparator). -/
def insertSorted (s : String) : List String → List String
  | [] => [s]
  | x :: xs => if strLE s x then s :: x :: xs else x :: insertSorted s xs

/-- JS `Array.prototype.sort()` on strings. -/
def sortStrings : List String → List String
  | [] => []
  | x :: xs => insertSorted x (sortStrings xs)

def listStartsWith : List Char → List Char → Bool
  | _, [] => true
  | [], _ :: _ => false
  | a :: as, b :: bs => a = b && listStartsWith as bs

/-- `String.prototype.startsWith`. -/
def strStartsWith (s p : String) : Bool := listStartsWith s.data p.data

/-- `String.prototype.endsWith`. -/
def strEndsWith (s p : String) : Bool :=
  listStartsWith s.data.reverse p.data.reverse

/-- `String.prototype.toLowerCase` (ASCII range; the strings this is
applied to are ASCII or checked against ASCII patterns). -/
def lowerStr (s : String) : String := String.mk (s.data.map Char.toLower)

/-- `String.prototype.split(sep)` with a one-character separator. -/
def splitOnChar (sep : Char) : List Char → List (List Char)
  | [] => [[]]
  | c :: rest =>
    let r := splitOnChar sep rest
    if c = sep then [] :: r
    else match r with
      | [] => [c] :: []
      | x :: xs => (c :: x) :: xs

/-- `chunkArray` from the trial-summarize route: slice a list into
consecutive chunks of `size` elements (the JS loop advances by `size`;
a zero size is never used by the callers and yields `[]` here). -/
def chunkArray {α : Type} : List α → Nat → List (List α)
  | [], _ => []
  | _ :: _, 0 => []
  | x :: xs, (n+1) =>
    (x :: xs).take (n+1) :: chunkArray ((x :: xs).drop (n+1)) (n+1)
termination_by l _ => l.length
decreasing_by
  simp only [List.length_drop, List.length_cons]
  omega

/-! ## Object key generation (`buildObjectKey`) -/

/-- Character class `[a-z0-9]` used by the sanitizing regex of
`buildObjectKey`. -/
def isLowerAlnum (c : Char) : Bool :=
  ('a' ≤ c && c ≤ 'z') || ('0' ≤ c && c ≤ '9')

/-- `filename.replace(/\.[^\/.]+$/, "")` on the character list: remove a
final dot followed by one or more characters none of which is a slash or a
dot.  The matched suffix, when it exists, is the run of non-dot non-slash
characters at the end of the name, preceded by a dot. -/
def dropExtension (l : List Char) : List Char :=
  let seg := l.reverse.takeWhile (fun c => !(c == '.' || c == '/'))
  if seg ≠ [] && l.reverse.getD seg.length ' ' == '.' then
    l.take (l.length - seg.length - 1)
  else l

/-- `filename.split(".").pop()`: the characters after the last dot, or the
whole name when it contains no dot. -/
def jsExtOf (l : List Char) : List Char :=
  if '.' ∈ l then (l.reverse.takeWhile (fun c => c != '.')).reverse else l

/-- Worker for `collapseNonAlnum`; the boolean records whether the previous
character was part of a non-alphanumeric run already replaced by a hyphen. -/
def collapseAux : Bool → List Char → List Char
  | _, [] => []
  | inRun, c :: rest =>
    if isLowerAlnum c then c :: collapseAux false rest
    else if inRun then collapseAux true rest
    else '-' :: collapseAux true rest

/-- `replace(/[^a-z0-9]+/g, "-")`: every maximal run of characters outside
`[a-z0-9]` becomes a single hyphen. -/
def collapseNonAlnum (l : List Char) : List Char :=
  collapseAux false l

/-- `replace(/^-+|-+$/g, "")`: strip leading and trailing hyphen runs. -/
def stripHyphens (l : List Char) : List Char :=
  (l.dropWhile (fun c => c == '-')).rdropWhile (fun c => c == '-')

/-- The sanitized basename of `buildObjectKey`: drop the extension,
lower-case, collapse non-alphanumerics to hyphens, strip edge hyphens and
truncate to 40 characters. -/
def sanitizeBase (filename : String) : String :=
  String.mk (((stripHyphens (collapseNonAlnum
    ((dropExtension filename.data).map Char.toLower)))).take 40)

/-- `buildObjectKey` from the transcription route.  The timestamp
(`Date.now()`) and the 8-hex-character random id are parameters since they
come from the clock and the RNG. -/
def buildObjectKey (timestamp : Nat) (randomId : String) (filename : String) :
    String :=
  let ext := String.mk (jsExtOf filename.data)
  let safeBase := sanitizeBase filename
  "uploads/audio/" ++ toString timestamp ++ "-" ++ randomId ++
    (if safeBase ≠ "" then "-" ++ safeBase else "") ++
    (if ext ≠ "" then "." ++ ext else "")

/-! ## Properties of the sanitized basename (claim C4) -/

/-- No two adjacent hyphens: non-alphanumeric runs were collapsed to a
single hyphen each. -/
def NoAdjHyphens (l : List Char) : Prop :=
  l.Chain' (fun a b => a ≠ '-' ∨ b ≠ '-')

theorem collapseAux_mem {b : Bool} {l : List Char} :
    ∀ c ∈ collapseAux b l, isLowerAlnum c ∨ c = '-' := by
  induction l generalizing b with
  | nil => simp [collapseAux]
  | cons c rest ih =>
    intro d hd
    simp only [collapseAux] at hd
    split at hd
    · rcases List.mem_cons.mp hd with h | h
      · subst h; left; assumption
      · exact ih d h
    · split at hd
      · exact ih d hd
      · rcases List.mem_cons.mp hd with h | h
        · subst h; right; rfl
        · exact ih d h

theorem collapseAux_true_head {l : List Char} {d : Char}
    (h : (collapseAux true l).head? = some d) : isLowerAlnum d := by
  induction l with
  | nil => simp [collapseAux] at h
  | cons c rest ih =>
    simp only [collapseAux] at h
    split at h
    · simp only [List.head?_cons, Option.some.injEq] at h
      subst h; assumption
    · simp only [if_true] at h
      exact ih h

theorem collapseAux_chain (b : Bool) (l : List Char) :
    NoAdjHyphens (collapseAux b l) := by
  induction l generalizing b with
  | nil => simp [collapseAux, NoAdjHyphens]
  | cons c rest ih =>
    simp only [collapseAux, NoAdjHyphens]
    split
    · refine List.chain'_cons'.mpr ⟨?_, ih false⟩
      intro y _
      left
      intro hc
      subst hc
      simp_all [isLowerAlnum]
    · split
      · exact ih true
      · refine List.chain'_cons'.mpr ⟨?_, ih true⟩
        intro y hy
        right
        intro hy'
        subst hy'
        rw [Option.mem_def] at hy
        have hh := collapseAux_true_head hy
        simp [isLowerAlnum] at hh

theorem head?_dropWhile_not {α : Type} (p : α → Bool) (l : List α) {c : α}
    (h : (l.dropWhile p).head? = some c) : p c = false := by
  induction l with
  | nil => simp [List.dropWhile] at h
  | cons x xs ih =>
    simp only [List.dropWhile] at h
    split at h
    · exact ih h
    · simp only [List.head?_cons, Option.some.injEq] at h
      subst h
      simp_all

theorem isPrefix_head? {α : Type} {l₁ l₂ : List α} (h : l₁ <+: l₂)
    (hne : l₁ ≠ []) : l₁.head? = l₂.head? := by
  obtain ⟨t, rfl⟩ := h
  cases l₁ with
  | nil => exact absurd rfl hne
  | cons x xs => rfl

theorem take_head? {α : Type} (n : Nat) (l : List α) (hn : 0 < n) :
    (l.take n).head? = l.head? := by
  cases l with
  | nil => simp
  | cons x xs =>
    cases n with
    | zero => omega
    | succ m => simp [List.take]

theorem stripHyphens_within (l : List Char) : stripHyphens l <:+: l := by
  have h1 : stripHyphens l <+: l.dropWhile (fun c => c == '-') :=
    List.rdropWhile_prefix _ _
  have h2 : l.dropWhile (fun c => c == '-') <:+ l := List.dropWhile_suffix _
  exact h1.isInfix.trans h2.isInfix

theorem sanitizeBase_data (fn : String) :
    (sanitizeBase fn).data =
      (stripHyphens (collapseNonAlnum
        ((dropExtension fn.data).map Char.toLower))).take 40 := rfl

theorem sanitizeBase_mem (fn : String) :
    ∀ c ∈ (sanitizeBase fn).data, isLowerAlnum c ∨ c = '-' := by
  intro c hc
  rw [sanitizeBase_data] at hc
  have h1 : c ∈ stripHyphens (collapseNonAlnum
      ((dropExtension fn.data).map Char.toLower)) :=
    (List.take_prefix _ _).subset hc
  have h2 : c ∈ collapseNonAlnum ((dropExtension fn.data).map Char.toLower) :=
    (stripHyphens_within _).subset h1
  exact collapseAux_mem c h2

theorem sanitizeBase_head (fn : String) {c : Char}
    (h : (sanitizeBase fn).data.head? = some c) : c ≠ '-' := by
  rw [sanitizeBase_data] at h
  have hne : (stripHyphens (collapseNonAlnum
      ((dropExtension fn.data).map Char.toLower))).take 40 ≠ [] := by
    intro hnil; rw [hnil] at h; simp at h
  rw [take_head? 40 _ (by omega)] at h
  have hne2 : stripHyphens (collapseNonAlnum
      ((dropExtension fn.data).map Char.toLower)) ≠ [] := by
    intro hnil
    rw [hnil] at hne
    simp at hne
  rw [stripHyphens] at h hne2
  rw [isPrefix_head? (List.rdropWhile_prefix _ _) hne2] at h
  have := head?_dropWhile_not (fun c => c == '-') _ h
  simpa using this

theorem sanitizeBase_chain (fn : String) : NoAdjHyphens (sanitizeBase fn).data := by
  rw [sanitizeBase_data]
  have hchain : NoAdjHyphens (collapseNonAlnum
      ((dropExtension fn.data).map Char.toLower)) := collapseAux_chain _ _
  have h1 : (stripHyphens (collapseNonAlnum
      ((dropExtension fn.data).map Char.toLower))).take 40 <:+:
      collapseNonAlnum ((dropExtension fn.data).map Char.toLower) :=
    (List.take_prefix _ _).isInfix.trans (stripHyphens_within _)
  exact hchain.infix h1

theorem sanitizeBase_length (fn : String) : (sanitizeBase fn).data.length ≤ 40 := by
  rw [sanitizeBase_data]
  exact List.length_take_le _ _

/-- C4: `buildObjectKey` returns
`uploads/audio/{epochMillis}-{randomId}[-{sanitizedBasename}][.{ext}]`; the
sanitized basename uses only `[a-z0-9-]`, never starts with a hyphen, has no
adjacent hyphens and is at most 40 characters long; for the filename
`"My Recording #1.wav"` the basename portion is `my-recording-1` and the
`.wav` extension is preserved. -/
theorem buildObjectKey_shape (ts : Nat) (rid fn : String) :
    (buildObjectKey ts rid fn =
      "uploads/audio/" ++ toString ts ++ "-" ++ rid ++
        (if sanitizeBase fn ≠ "" then "-" ++ sanitizeBase fn else "") ++
        (if String.mk (jsExtOf fn.data) ≠ "" then
          "." ++ String.mk (jsExtOf fn.data) else "")) ∧
    (∀ c ∈ (sanitizeBase fn).data, isLowerAlnum c ∨ c = '-') ∧
    (∀ c, (sanitizeBase fn).data.head? = some c → c ≠ '-') ∧
    (sanitizeBase fn).data.length ≤ 40 ∧
    NoAdjHyphens (sanitizeBase fn).data ∧
    buildObjectKey ts rid "My Recording #1.wav" =
      "uploads/audio/" ++ toString ts ++ "-" ++ rid ++ "-my-recording-1.wav" := by
  refine ⟨rfl, sanitizeBase_mem fn, fun c h => sanitizeBase_head fn h,
    sanitizeBase_length fn, sanitizeBase_chain fn, ?_⟩
  have h1 : sanitizeBase "My Recording #1.wav" = "my-recording-1" := by decide
  have h2 : String.mk (jsExtOf ("My Recording #1.wav").data) = "wav" := by decide
  simp only [buildObjectKey, h1, h2]
  norm_num
  rw [String.append_assoc]
  congr 1

/-! ## URL parsing helpers (`deriveObjectKeyFromUrl`, `getFilenameFromUrl`)

A small model of `new URL(value)` restricted to what the route uses: the
`pathname` of scheme://host/path?query#hash URLs, and `decodeURIComponent`
as percent-unescaping followed by UTF-8 decoding (malformed input yields
`none`, standing for the exception the route catches). -/

def hexDigitVal (c : Char) : Option Nat :=
  if '0' ≤ c ∧ c ≤ '9' then some (c.toNat - '0'.toNat)
  else if 'a' ≤ c ∧ c ≤ 'f' then some (c.toNat - 'a'.toNat + 10)
  else if 'A' ≤ c ∧ c ≤ 'F' then some (c.toNat - 'A'.toNat + 10)
  else none

def charUtf8Bytes (c : Char) : List Nat :=
  let n := c.toNat
  if n < 0x80 then [n]
  else if n < 0x800 then [0xC0 ||| (n >>> 6), 0x80 ||| (n &&& 0x3F)]
  else if n < 0x10000 then
    [0xE0 ||| (n >>> 12), 0x80 ||| ((n >>> 6) &&& 0x3F), 0x80 ||| (n &&& 0x3F)]
  else
    [0xF0 ||| (n >>> 18), 0x80 ||| ((n >>> 12) &&& 0x3F),
      0x80 ||| ((n >>> 6) &&& 0x3F), 0x80 ||| (n &&& 0x3F)]

/-- Percent-unescape a character sequence into a byte sequence; `%` not
followed by two hex digits is malformed. -/
def percentBytes : List Char → Option (List Nat)
  | [] => some []
  | '%' :: a :: b :: rest =>
    match hexDigitVal a, hexDigitVal b, percentBytes rest with
    | some ha, some hb, some bs => some ((16 * ha + hb) :: bs)
    | _, _, _ => none
  | '%' :: _ => none
  | c :: rest => (percentBytes rest).map (fun bs => charUtf8Bytes c ++ bs)

def utf8Cont (b : Nat) : Bool := 0x80 ≤ b && b < 0xC0

/-- Decode a UTF-8 byte sequence (continuation-byte structure checked;
other invalidities are out of scope for the URLs the route handles). -/
def utf8Decode : List Nat → Option (List Char)
  | [] => some []
  | b :: rest =>
    if b < 0x80 then (utf8Decode rest).map (fun cs => Char.ofNat b :: cs)
    else if b < 0xC2 then none
    else if b < 0xE0 then
      match rest with
      | b2 :: rest2 =>
        if utf8Cont b2 then
          (utf8Decode rest2).map
            (fun cs => Char.ofNat (((b - 0xC0) <<< 6) + (b2 - 0x80)) :: cs)
        else none
      | [] => none
    else if b < 0xF0 then
      match rest with
      | b2 :: b3 :: rest3 =>
        if utf8Cont b2 && utf8Cont b3 then
          (utf8Decode rest3).map
            (fun cs => Char.ofNat (((b - 0xE0) <<< 12) + ((b2 - 0x80) <<< 6)
              + (b3 - 0x80)) :: cs)
        else none
      | _ => none
    else if b < 0xF5 then
      match rest with
      | b2 :: b3 :: b4 :: rest4 =>
        if utf8Cont b2 && utf8Cont b3 && utf8Cont b4 then
          (utf8Decode rest4).map
            (fun cs => Char.ofNat (((b - 0xF0) <<< 18) + ((b2 - 0x80) <<< 12)
              + ((b3 - 0x80) <<< 6) + (b4 - 0x80)) :: cs)
        else none
      | _ => none
    else none

def decodeURIComponentModel (s : String) : Option String :=
  match percentBytes s.data with
  | none => none
  | some bs => (utf8Decode bs).map String.mk

/-- Characters after the first occurrence of `://`, or `none` when the
separator is absent (standing for `new URL` throwing on the inputs the
route sees). -/
def afterSchemeSep : List Char → Option (List Char)
  | [] => none
  | ':' :: '/' :: '/' :: rest => some rest
  | _ :: rest => afterSchemeSep rest

/-- `new URL(value).pathname` for scheme://host/path?query#hash URLs. -/
def urlPathname (value : String) : Option String :=
  match afterSchemeSep value.data with
  | none => none
  | some rest =>
    let afterHost := rest.dropWhile (fun c => !(c == '/' || c == '?' || c == '#'))
    let path := afterHost.takeWhile (fun c => !(c == '?' || c == '#'))
    if path = [] then some "/" else some (String.mk path)

/-- `deriveObjectKeyFromUrl`: decode the URL pathname without its leading
slash; on a parse or decode failure return the raw value. -/
def deriveObjectKeyFromUrl (value : String) : String :=
  match urlPathname value with
  | none => value
  | some path =>
    let stripped := if strStartsWith path "/" then String.mk (path.data.drop 1) else path
    match decodeURIComponentModel stripped with
    | none => value
    | some k => k

/-- `getFilenameFromUrl`: last non-empty pathname segment, decoded;
`remote-audio` on any failure. -/
def getFilenameFromUrl (url : String) : String :=
  match urlPathname url with
  | none => "remote-audio"
  | some path =>
    match (((splitOnChar '/' path.data).map String.mk).filter
        (fun s => s ≠ "")).getLast? with
    | none => "remote-audio"
    | some basename =>
      match decodeURIComponentModel basename with
      | none => "remote-audio"
      | some s => s

/-! ## File model and classification -/

/-- The observable part of a browser `File`: name, MIME type and byte
size.  Contents are irrelevant to the claims and carried only as a size. -/
structure FileModel where
  name : String
  mime : String
  size : Nat
deriving DecidableEq, Repr

def MAX_FILE_SIZE : Nat := 50 * 1024 * 1024

def hasSuffixAmong (name : String) (exts : List String) : Bool :=
  exts.any (fun e => strEndsWith (lowerStr name) e)

/-- `isAudioFile`: `audio/*` MIME type or an audio filename extension
(`/\.(mp3|m4a|wav|flac|aac|ogg|wma|webm)$/i`). -/
def isAudioFile (f : FileModel) : Bool :=
  strStartsWith f.mime "audio/" ||
    hasSuffixAmong f.name
      [".mp3", ".m4a", ".wav", ".flac", ".aac", ".ogg", ".wma", ".webm"]

/-- `isVideoFile`: `video/*` MIME type or a video filename extension
(`/\.(mp4|mkv|mov|avi|flv|webm)$/i`). -/
def isVideoFile (f : FileModel) : Bool :=
  strStartsWith f.mime "video/" ||
    hasSuffixAmong f.name [".mp4", ".mkv", ".mov", ".avi", ".flv", ".webm"]

/-! ## Media transcoder wrappers -/

/-- `ensureMp3Extension`: keep a `.mp3` name, otherwise replace the
extension with `.mp3` (empty basename becomes `audio`). -/
def ensureMp3Extension (name : String) : String :=
  if strEndsWith (lowerStr name) ".mp3" then name
  else (if String.mk (dropExtension name.data) = "" then "audio"
        else String.mk (dropExtension name.data)) ++ ".mp3"

/-- Outcome of one `transcodeToMp3` subprocess run: `none` when the spawn
fails or the exit code is non-zero (the promise resolves `null`, it never
rejects), otherwise the size of the produced MP3 bytes. -/
abbrev TranscodeOutcome := Option Nat

/-- `optimizeAudioForTranscription`: below the threshold or with
optimization disabled the file passes through; a failed transcode also
returns the original file (the `null` result and the catch both fall back). -/
def optimizeAudioForTranscription (enabled : Bool) (threshold : Nat)
    (file : FileModel) (transcoded : TranscodeOutcome) : FileModel :=
  if ¬ enabled then file
  else if file.size ≤ threshold then file
  else match transcoded with
    | none => file
    | some n =>
      { name := ensureMp3Extension (if file.name = "" then "audio-file" else file.name),
        mime := "audio/mpeg", size := n }

/-- `convertVideoToAudio`: a failed transcode throws (`Except.error`),
a successful one yields an `audio/mpeg` file with an `.mp3` name. -/
def convertVideoToAudio (file : FileModel) (transcoded : TranscodeOutcome) :
    Except String FileModel :=
  match transcoded with
  | none => Except.error "无法从视频中提取音频，请检查文件格式。"
  | some n =>
    Except.ok
      { name := ensureMp3Extension (if file.name = "" then "video-audio" else file.name),
        mime := "audio/mpeg", size := n }

/-- Outcome of the ffmpeg segmentation run inside `segmentAudioFile`'s
`try` block: `failure` for any exception there (spawn error, non-zero exit,
temp-dir read failure), `success names` for the directory entries found
after a zero exit. -/
inductive SegmentRunOutcome where
  | failure
  | success (names : List String)
deriving DecidableEq

/-- `segmentAudioFile`: disabled segmentation, a small file, a non-positive
duration, a failed run, or at most one produced segment all return the
single original file; otherwise the sorted `segment-` files are returned.
`segSize` gives the byte size read back for each segment file. -/
def segmentAudioFile (enabled : Bool) (minSize : Nat) (duration : Int)
    (file : FileModel) (run : SegmentRunOutcome) (segSize : String → Nat) :
    List FileModel :=
  if ¬ enabled then [file]
  else if file.size ≤ minSize then [file]
  else if duration ≤ 0 then [file]
  else match run with
    | .failure => [file]
    | .success names =>
      let files := sortStrings (names.filter (fun n => strStartsWith n "segment-"))
      if files.length ≤ 1 then [file]
      else files.map (fun n => { name := n, mime := "audio/mpeg", size := segSize n })

/-! ## Upload history recording -/

/-- One row of the `audio_uploads` table as written by `insertAudioUpload`. -/
structure UploadRecord where
  user_uuid : String
  filename : String
  audio_url : String
  object_key : String
  status : String
  error_message : Option String
deriving DecidableEq, Repr

/-- Result of `uploadToOSS` / `buildUploadResultFromUrl`. -/
structure OssResult where
  url : String
  key : String
deriving DecidableEq, Repr

/-- The mutable closure state of the route handler that `recordUpload`
reads and writes: `uploadResult`, the `recordedHistory` flag, and the rows
actually inserted so far. -/
structure RecState where
  uploadResult : Option OssResult
  recorded : Bool
  records : List UploadRecord
deriving DecidableEq, Repr

/-- `recordUpload`: skip when history is disabled, when no upload result is
set, or when a record was already written; otherwise set the guard flag and
attempt the insert (`insertOk = false` models `insertAudioUpload` throwing,
which the function catches, leaving no row). -/
def recordUpload (historyEnabled insertOk : Bool) (uuid fname : String)
    (st : RecState) (status : String) (errMsg : Option String) : RecState :=
  if ¬ historyEnabled then st
  else match st.uploadResult with
    | none => st
    | some u =>
      if st.recorded then st
      else
        { st with
          recorded := true
          records := st.records ++ (if insertOk then
            [{ user_uuid := uuid, filename := fname, audio_url := u.url,
               object_key := u.key, status := status,
               error_message := errMsg }] else []) }

/-! ## The POST /transcription orchestrator -/

/-- What `transcribeWithApimart` / `transcribeSegments` return on success
(the raw provider JSON is opaque to every claim and omitted). -/
structure TranscriptionOut where
  transcript : String
  vendor : String
deriving DecidableEq, Repr

inductive ResponseBody where
  | ok (transcript vendor audioUrl objectKey : String)
  | err (msg : String)
deriving DecidableEq, Repr

structure HttpResponse where
  status : Nat
  body : ResponseBody
deriving DecidableEq, Repr

/-- Outcome of the `fetch(url)` inside `fetchRemoteFile`. -/
inductive FetchOutcome where
  | netOk (contentType : String) (size : Nat)
  | netFail (status : Nat) (statusText : String)
deriving DecidableEq, Repr

/-- `fetchRemoteFile`: a non-2xx response throws; otherwise the body of any
size becomes a `File` named after the URL (no size check here). -/
def fetchRemoteFile (url : String) (out : FetchOutcome) :
    Except String FileModel :=
  match out with
  | .netFail status statusText =>
    Except.error ("无法下载音频链接：" ++ toString status ++ " " ++ statusText)
  | .netOk ct size =>
    Except.ok
      { name := getFilenameFromUrl url,
        mime := if ct = "" then "application/octet-stream" else ct,
        size := size }

/-- The environment of one request: configuration read from `process.env`
and the outcome of every external interaction (network, subprocesses,
database).  The handler itself is a pure function of this record. -/
structure RequestEnv where
  missingEnv : List String
  historyEnabled : Bool
  userUuid : String
  fileEntry : Option FileModel
  remoteUrl : String
  fetchRun : FetchOutcome
  videoTranscode : TranscodeOutcome
  optimizeEnabled : Bool
  optimizeThreshold : Nat
  optimizeTranscode : TranscodeOutcome
  segmentEnabled : Bool
  segmentMinSize : Nat
  segmentDuration : Int
  segmentRun : SegmentRunOutcome
  segSize : String → Nat
  uploadRun : Except String OssResult
  transcribeRun : Except String TranscriptionOut
  insertOk : Bool

/-- The handler's observable result: HTTP response, history rows inserted,
and how many times each external resource was engaged. -/
structure PostOutcome where
  resp : HttpResponse
  records : List UploadRecord
  fetches : Nat
  uploads : Nat
  transcribes : Nat
deriving DecidableEq, Repr

/-- The `catch` block of the handler: log, `recordUpload("failed", msg)`,
respond 500 with the error message. -/
def catchReturn (env : RequestEnv) (st : RecState) (safeFilename msg : String)
    (fetches uploads transcribes : Nat) : PostOutcome :=
  let st2 := recordUpload env.historyEnabled env.insertOk env.userUuid
    safeFilename st "failed" (some msg)
  { resp := { status := 500, body := .err msg }, records := st2.records,
    fetches := fetches, uploads := uploads, transcribes := transcribes }

/-- Continuation after upload/linking succeeded (`uploadResult` set):
optimize, segment, transcribe, record `completed`, respond 200. -/
def handleUploaded (env : RequestEnv) (safeFilename : String) (u : OssResult)
    (_tfile : FileModel) (fetches uploads : Nat) : PostOutcome :=
  let st : RecState := { uploadResult := some u, recorded := false, records := [] }
  match env.transcribeRun with
  | .error e => catchReturn env st safeFilename e fetches uploads 1
  | .ok t =>
    let st2 := recordUpload env.historyEnabled env.insertOk env.userUuid
      safeFilename st "completed" none
    { resp := { status := 200, body := .ok t.transcript t.vendor u.url u.key },
      records := st2.records, fetches := fetches, uploads := uploads,
      transcribes := 1 }

/-- Continuation after the audio/size validations: set `safeFilename`,
upload to OSS for direct uploads or link the remote URL, then proceed. -/
def handleValidated (env : RequestEnv) (file tfile : FileModel)
    (isRemote : Bool) (fetches : Nat) : PostOutcome :=
  if !(isAudioFile tfile) then
    { resp := { status := 400, body := .err "仅支持音频文件，请重新选择或检查链接。" },
      records := [], fetches := fetches, uploads := 0, transcribes := 0 }
  else if MAX_FILE_SIZE < file.size then
    { resp := { status := 400, body := .err "文件体积超出限制，请压缩到 50MB 以内再试。" },
      records := [], fetches := fetches, uploads := 0, transcribes := 0 }
  else
    let safeFilename := if tfile.name = "" then "audio-file" else tfile.name
    if isRemote then
      handleUploaded env safeFilename
        { url := env.remoteUrl, key := deriveObjectKeyFromUrl env.remoteUrl }
        tfile fetches 0
    else
      match env.uploadRun with
      | .error e =>
        catchReturn env { uploadResult := none, recorded := false, records := [] }
          safeFilename e fetches 1 0
      | .ok u => handleUploaded env safeFilename u tfile fetches 1

/-- Continuation once an input file exists: convert video to audio first
(fatal on failure), then validate. -/
def handleWithFile (env : RequestEnv) (file : FileModel) (isRemote : Bool)
    (fetches : Nat) : PostOutcome :=
  if !(isAudioFile file) && isVideoFile file then
    match convertVideoToAudio file env.videoTranscode with
    | .error e =>
      catchReturn env { uploadResult := none, recorded := false, records := [] }
        "audio-file" e fetches 0 0
    | .ok tf => handleValidated env file tf isRemote fetches
  else handleValidated env file file isRemote fetches

/-- The `POST /transcription` handler (first route version, the one the
spec describes): environment validation, input resolution, classification,
size check, upload/link, optimize, segment, transcribe, record history.
The optimize and segment stages never throw and only change which bytes are
sent to the speech API, which the `transcribeRun` oracle already absorbs;
they are modelled by their pure functions and proved about separately. -/
def handlePOST (env : RequestEnv) : PostOutcome :=
  let st0 : RecState := { uploadResult := none, recorded := false, records := [] }
  if env.missingEnv ≠ [] then
    catchReturn env st0 "audio-file"
      ("缺少必填环境变量：" ++ joinSep ", " env.missingEnv) 0 0 0
  else
    match env.fileEntry with
    | some f => handleWithFile env f false 0
    | none =>
      if env.remoteUrl ≠ "" then
        match fetchRemoteFile env.remoteUrl env.fetchRun with
        | .error e => catchReturn env st0 "audio-file" e 1 0 0
        | .ok f => handleWithFile env f true 1
      else
        { resp := { status := 400, body := .err "请上传音频文件或提供一个可访问的音频链接。" },
          records := [], fetches := 0, uploads := 0, transcribes := 0 }

/-! ## Claim C6: segmentation fallbacks -/

/-- C6: `segmentAudioFile` returns exactly the single original file when
segmentation is disabled, when the file is at most the minimum segment
size, when the segment duration is not positive, when the ffmpeg run fails
(no exception escapes: the catch returns the original file), and when at
most one segment file is produced. -/
theorem segmentAudioFile_single_fallbacks (enabled : Bool) (minSize : Nat)
    (duration : Int) (file : FileModel) (run : SegmentRunOutcome)
    (segSize : String → Nat) :
    (enabled = false →
      segmentAudioFile enabled minSize duration file run segSize = [file]) ∧
    (file.size ≤ minSize →
      segmentAudioFile enabled minSize duration file run segSize = [file]) ∧
    (duration ≤ 0 →
      segmentAudioFile enabled minSize duration file run segSize = [file]) ∧
    (run = .failure →
      segmentAudioFile enabled minSize duration file run segSize = [file]) ∧
    (∀ names, run = .success names →
      (sortStrings (names.filter (fun n => strStartsWith n "segment-"))).length ≤ 1 →
      segmentAudioFile enabled minSize duration file run segSize = [file]) := by
  unfold segmentAudioFile
  refine ⟨?_, ?_, ?_, ?_, ?_⟩
  · intro h; simp [h]
  · intro h; split
    · rfl
    · simp [h]
  · intro h; split
    · rfl
    · split
      · rfl
      · simp [h]
  · intro h; subst h
    split
    · rfl
    · split
      · rfl
      · split
        · rfl
        · rfl
  · intro names h hlen
    subst h
    split
    · rfl
    · split
      · rfl
      · split
        · rfl
        · simp only []
          rw [if_pos hlen]

/-- Concrete instances exercising every fallback branch of
`segmentAudioFile_single_fallbacks`. -/
theorem segmentAudioFile_single_fallbacks_witness :
    segmentAudioFile false 100 600 ⟨"a.mp3", "audio/mpeg", 1000⟩ .failure
      (fun _ => 0) = [⟨"a.mp3", "audio/mpeg", 1000⟩] ∧
    segmentAudioFile true 2000 600 ⟨"a.mp3", "audio/mpeg", 1000⟩
      (.success ["segment-000.mp3", "segment-001.mp3"]) (fun _ => 0) =
      [⟨"a.mp3", "audio/mpeg", 1000⟩] ∧
    segmentAudioFile true 100 0 ⟨"a.mp3", "audio/mpeg", 1000⟩
      (.success ["segment-000.mp3", "segment-001.mp3"]) (fun _ => 0) =
      [⟨"a.mp3", "audio/mpeg", 1000⟩] ∧
    segmentAudioFile true 100 600 ⟨"a.mp3", "audio/mpeg", 1000⟩ .failure
      (fun _ => 0) = [⟨"a.mp3", "audio/mpeg", 1000⟩] ∧
    segmentAudioFile true 100 600 ⟨"a.mp3", "audio/mpeg", 1000⟩
      (.success ["segment-000.mp3"]) (fun _ => 0) =
      [⟨"a.mp3", "audio/mpeg", 1000⟩] :=
  ⟨(segmentAudioFile_single_fallbacks false 100 600 _ _ _).1 rfl,
   (segmentAudioFile_single_fallbacks true 2000 600 _ _ _).2.1 (by decide),
   (segmentAudioFile_single_fallbacks true 100 0 _ _ _).2.2.1 (by decide),
   (segmentAudioFile_single_fallbacks true 100 600 _ _ _).2.2.2.1 rfl,
   (segmentAudioFile_single_fallbacks true 100 600 _ _ _).2.2.2.2
     ["segment-000.mp3"] rfl (by decide)⟩

/-! ## Claim C7: optional vs mandatory transcode failure -/

/-- C7: a failed transcode makes `optimizeAudioForTranscription` return the
original file (it never throws), while it makes `convertVideoToAudio`
throw; in the orchestrator a video input whose conversion fails ends the
attempt with a 500 error before any upload or transcription. -/
theorem transcode_failure_optional_vs_mandatory (enabled : Bool)
    (threshold : Nat) (file : FileModel) (env : RequestEnv) (f : FileModel) :
    optimizeAudioForTranscription enabled threshold file none = file ∧
    convertVideoToAudio file none =
      Except.error "无法从视频中提取音频，请检查文件格式。" ∧
    (env.missingEnv = [] → env.fileEntry = some f → isAudioFile f = false →
      isVideoFile f = true → env.videoTranscode = none →
      (handlePOST env).resp =
        { status := 500, body := .err "无法从视频中提取音频，请检查文件格式。" } ∧
      (handlePOST env).uploads = 0 ∧ (handlePOST env).transcribes = 0) := by
  refine ⟨?_, rfl, ?_⟩
  · unfold optimizeAudioForTranscription
    split
    · rfl
    · split
      · rfl
      · rfl
  · intro h1 h2 h3 h4 h5
    have hne : ¬ env.missingEnv ≠ [] := by simp [h1]
    simp only [handlePOST, if_neg hne, h2]
    simp only [handleWithFile, h3, h4, h5, Bool.not_false, Bool.true_and,
      if_pos, convertVideoToAudio, catchReturn]
    refine ⟨by trivial, by trivial, by trivial⟩

/-- Concrete instance of `transcode_failure_optional_vs_mandatory`: a 20MB
`video/mp4` upload whose ffmpeg conversion fails. -/
def envC7 : RequestEnv :=
  { missingEnv := [], historyEnabled := true, userUuid := "u",
    fileEntry := some ⟨"clip.mp4", "video/mp4", 20971520⟩, remoteUrl := "",
    fetchRun := .netOk "" 0, videoTranscode := none, optimizeEnabled := true,
    optimizeThreshold := 15728640, optimizeTranscode := none,
    segmentEnabled := false, segmentMinSize := 18874368,
    segmentDuration := 600, segmentRun := .failure, segSize := fun _ => 0,
    uploadRun := .ok ⟨"https://bucket.example/key", "key"⟩,
    transcribeRun := .ok ⟨"hello", "apimart-whisper"⟩, insertOk := true }

theorem transcode_failure_optional_vs_mandatory_witness :
    optimizeAudioForTranscription true 15728640 ⟨"clip.mp4", "video/mp4", 20971520⟩
      none = ⟨"clip.mp4", "video/mp4", 20971520⟩ ∧
    (handlePOST envC7).resp =
      { status := 500, body := .err "无法从视频中提取音频，请检查文件格式。" } ∧
    (handlePOST envC7).uploads = 0 ∧ (handlePOST envC7).transcribes = 0 :=
  ⟨(transcode_failure_optional_vs_mandatory true 15728640
      ⟨"clip.mp4", "video/mp4", 20971520⟩ envC7
      ⟨"clip.mp4", "video/mp4", 20971520⟩).1,
   (transcode_failure_optional_vs_mandatory true 15728640
      ⟨"clip.mp4", "video/mp4", 20971520⟩ envC7
      ⟨"clip.mp4", "video/mp4", 20971520⟩).2.2 rfl rfl (by decide) (by decide) rfl⟩

/-! ## Claim C8: at most one history record per request -/

/-- Fold `recordUpload` over a sequence of calls, as the success and error
paths of one request invocation would perform them. -/
def runRecordCalls (historyEnabled insertOk : Bool) (uuid fname : String)
    (st : RecState) (calls : List (String × Option String)) : RecState :=
  calls.foldl (fun s c => recordUpload historyEnabled insertOk uuid fname s c.1 c.2) st

/-- Bound tying the guard flag to the rows inserted: a state that has not
recorded yet has no rows, and a recorded state has at most one. -/
def RecBound (st : RecState) : Prop :=
  st.records.length + (if st.recorded then 0 else 1) ≤ 1

theorem recordUpload_preserves_bound (historyEnabled insertOk : Bool)
    (uuid fname : String) (st : RecState) (status : String)
    (errMsg : Option String) (h : RecBound st) :
    RecBound (recordUpload historyEnabled insertOk uuid fname st status errMsg) := by
  unfold recordUpload
  split
  · exact h
  · split
    · exact h
    · split
      · exact h
      · unfold RecBound at h ⊢
        simp only [List.length_append]
        split <;> simp_all

theorem runRecordCalls_bound (historyEnabled insertOk : Bool)
    (uuid fname : String) (calls : List (String × Option String))
    (st : RecState) (h : RecBound st) :
    RecBound (runRecordCalls historyEnabled insertOk uuid fname st calls) := by
  induction calls generalizing st with
  | nil => exact h
  | cons c rest ih =>
    exact ih _ (recordUpload_preserves_bound _ _ _ _ _ _ _ h)

/-- C8: once a call to `recordUpload` has reached the write (set the
guard), every further call is a no-op; and starting from the fresh state of
a request, any sequence of calls inserts at most one row. -/
theorem recordUpload_at_most_once (historyEnabled insertOk : Bool)
    (uuid fname : String) (st : RecState)
    (calls : List (String × Option String)) :
    (st.recorded = true → ∀ status errMsg,
      recordUpload historyEnabled insertOk uuid fname st status errMsg = st) ∧
    (st.recorded = false → st.records = [] →
      (runRecordCalls historyEnabled insertOk uuid fname st calls).records.length ≤ 1) := by
  constructor
  · intro h status errMsg
    unfold recordUpload
    split
    · rfl
    · split
      · rfl
      · simp [h]
  · intro h1 h2
    have hb : RecBound st := by unfold RecBound; rw [h1, h2]; simp
    have := runRecordCalls_bound historyEnabled insertOk uuid fname calls st hb
    unfold RecBound at this
    omega

/-- Concrete instance of `recordUpload_at_most_once`: a success-path write
followed by an error-path write inserts exactly one row. -/
theorem recordUpload_at_most_once_witness :
    (recordUpload true true "u" "f"
      { uploadResult := some ⟨"url", "key"⟩, recorded := true, records := [] }
      "failed" (some "boom") =
      { uploadResult := some ⟨"url", "key"⟩, recorded := true, records := [] }) ∧
    (runRecordCalls true true "u" "f"
      { uploadResult := some ⟨"url", "key"⟩, recorded := false, records := [] }
      [("completed", none), ("failed", some "boom")]).records.length ≤ 1 :=
  ⟨(recordUpload_at_most_once true true "u" "f" _ []).1 rfl "failed" (some "boom"),
   (recordUpload_at_most_once true true "u" "f" _
      [("completed", none), ("failed", some "boom")]).2 rfl rfl⟩

/-! ## Claim C10: the history insert never affects the response -/

theorem handleUploaded_resp_insert (env : RequestEnv) (b : Bool) (fn : String)
    (u : OssResult) (tf : FileModel) (a c : Nat) :
    (handleUploaded { env with insertOk := b } fn u tf a c).resp =
      (handleUploaded env fn u tf a c).resp := by
  dsimp only [handleUploaded]
  cases h : env.transcribeRun with
  | error e => simp [h, catchReturn]
  | ok t => simp [h]

theorem handleValidated_resp_insert (env : RequestEnv) (b : Bool)
    (file tf : FileModel) (r : Bool) (a : Nat) :
    (handleValidated { env with insertOk := b } file tf r a).resp =
      (handleValidated env file tf r a).resp := by
  dsimp only [handleValidated]
  split
  · rfl
  · split
    · rfl
    · split
      · exact handleUploaded_resp_insert env b _ _ tf a 0
      · cases h : env.uploadRun with
        | error e => simp [h, catchReturn]
        | ok u => simp only [h]; exact handleUploaded_resp_insert env b _ u tf a 1

theorem handleWithFile_resp_insert (env : RequestEnv) (b : Bool)
    (file : FileModel) (r : Bool) (a : Nat) :
    (handleWithFile { env with insertOk := b } file r a).resp =
      (handleWithFile env file r a).resp := by
  dsimp only [handleWithFile]
  split
  · cases h : convertVideoToAudio file env.videoTranscode with
    | error e => simp [h, catchReturn]
    | ok tf => simp only [h]; exact handleValidated_resp_insert env b file tf r a
  · exact handleValidated_resp_insert env b file file r a

/-- C10: whether `insertAudioUpload` succeeds or throws is invisible in the
HTTP response: the handler returns the same status and body either way
(the insert error is caught inside `recordUpload`). -/
theorem response_independent_of_insert (env : RequestEnv) :
    (handlePOST { env with insertOk := true }).resp =
      (handlePOST { env with insertOk := false }).resp := by
  have key : ∀ b : Bool, (handlePOST { env with insertOk := b }).resp =
      (handlePOST env).resp := by
    intro b
    dsimp only [handlePOST]
    split
    · simp [catchReturn]
    · cases h : env.fileEntry with
      | some f => simp only [h]; exact handleWithFile_resp_insert env b f false 0
      | none =>
        simp only [h]
        split
        · cases hf : fetchRemoteFile env.remoteUrl env.fetchRun with
          | error e => simp [hf, catchReturn]
          | ok f => simp only [hf]; exact handleWithFile_resp_insert env b f true 1
        · rfl
  rw [key true, key false]

/-! ## Claim C1: one history record per attempt (amended) -/

/-- The record dichotomy once `handleUploaded` runs with an upload result
in hand: exactly one row, `completed` alongside a 200 with a non-empty
transcript, or `failed` with a non-empty message alongside the 500. -/
theorem handleUploaded_dichotomy (env : RequestEnv) (fn : String)
    (u : OssResult) (tf : FileModel) (a b : Nat)
    (h5 : env.historyEnabled = true) (h6 : env.insertOk = true)
    (herr : ∀ e, env.transcribeRun = .error e → e ≠ "")
    (htr : ∀ t, env.transcribeRun = .ok t → t.transcript ≠ "") :
    ∃ r, (handleUploaded env fn u tf a b).records = [r] ∧
      ((r.status = "completed" ∧ r.error_message = none ∧
        (handleUploaded env fn u tf a b).resp.status = 200 ∧
        (∃ t, env.transcribeRun = .ok t ∧ t.transcript ≠ "" ∧
          (handleUploaded env fn u tf a b).resp.body =
            .ok t.transcript t.vendor u.url u.key)) ∨
       (r.status = "failed" ∧
        (∃ m, r.error_message = some m ∧ m ≠ "" ∧
          (handleUploaded env fn u tf a b).resp =
            { status := 500, body := .err m }))) := by
  cases ht : env.transcribeRun with
  | ok t =>
    refine ⟨{ user_uuid := env.userUuid, filename := fn,
              audio_url := u.url, object_key := u.key,
              status := "completed", error_message := none },
      ?_, Or.inl ⟨rfl, rfl, ?_, t, rfl, htr t ht, ?_⟩⟩
    · dsimp only [handleUploaded]
      rw [ht]
      dsimp only [recordUpload]
      rw [if_neg (by simp [h5]), if_neg (by simp)]
      simp [h6]
    · dsimp only [handleUploaded]; rw [ht]
    · dsimp only [handleUploaded]; rw [ht]
  | error e =>
    refine ⟨{ user_uuid := env.userUuid, filename := fn,
              audio_url := u.url, object_key := u.key,
              status := "failed", error_message := some e },
      ?_, Or.inr ⟨rfl, e, rfl, herr e ht, ?_⟩⟩
    · dsimp only [handleUploaded]
      rw [ht]
      dsimp only [catchReturn, recordUpload]
      rw [if_neg (by simp [h5]), if_neg (by simp)]
      simp [h6]
    · dsimp only [handleUploaded]; rw [ht]; rfl

/-- C1 (amended): for a ≤50MB audio input with history recording enabled
and a working insert, once the upload/link step has set an upload result —
`uploadToOSS` succeeding for a direct upload, or `buildUploadResultFromUrl`
linking a remote `fileUrl` — the attempt writes exactly one record:
`completed` with a non-empty transcript on success, `failed` with a
non-empty error message on failure, never both and never neither; when the
attempt fails before an upload result exists (the OSS upload throws, or
the remote fetch throws) no record is written at all. -/
theorem record_outcome_per_attempt (env : RequestEnv) (f : FileModel)
    (h1 : env.missingEnv = [])
    (h5 : env.historyEnabled = true) (h6 : env.insertOk = true)
    (herr : ∀ e, env.transcribeRun = .error e → e ≠ "")
    (htr : ∀ t, env.transcribeRun = .ok t → t.transcript ≠ "") :
    (env.fileEntry = some f → isAudioFile f = true → f.size ≤ MAX_FILE_SIZE →
      ∀ u, env.uploadRun = .ok u →
      ∃ r, (handlePOST env).records = [r] ∧
        ((r.status = "completed" ∧ r.error_message = none ∧
          (handlePOST env).resp.status = 200 ∧
          (∃ t, env.transcribeRun = .ok t ∧ t.transcript ≠ "" ∧
            (handlePOST env).resp.body = .ok t.transcript t.vendor u.url u.key)) ∨
         (r.status = "failed" ∧
          (∃ m, r.error_message = some m ∧ m ≠ "" ∧
            (handlePOST env).resp = { status := 500, body := .err m })))) ∧
    (env.fileEntry = some f → isAudioFile f = true → f.size ≤ MAX_FILE_SIZE →
      ∀ e, env.uploadRun = .error e →
      (handlePOST env).records = [] ∧ (handlePOST env).resp.status = 500) ∧
    (env.fileEntry = none → env.remoteUrl ≠ "" →
      fetchRemoteFile env.remoteUrl env.fetchRun = .ok f →
      isAudioFile f = true → f.size ≤ MAX_FILE_SIZE →
      ∃ r, (handlePOST env).records = [r] ∧
        ((r.status = "completed" ∧ r.error_message = none ∧
          (handlePOST env).resp.status = 200 ∧
          (∃ t, env.transcribeRun = .ok t ∧ t.transcript ≠ "" ∧
            (handlePOST env).resp.body = .ok t.transcript t.vendor
              env.remoteUrl (deriveObjectKeyFromUrl env.remoteUrl))) ∨
         (r.status = "failed" ∧
          (∃ m, r.error_message = some m ∧ m ≠ "" ∧
            (handlePOST env).resp = { status := 500, body := .err m })))) ∧
    (env.fileEntry = none → env.remoteUrl ≠ "" →
      ∀ e, fetchRemoteFile env.remoteUrl env.fetchRun = .error e →
      (handlePOST env).records = [] ∧ (handlePOST env).resp.status = 500) := by
  have hne : ¬ env.missingEnv ≠ [] := by simp [h1]
  refine ⟨?_, ?_, ?_, ?_⟩
  · intro h2 h3 h4 u hu
    have hpost : handlePOST env = handleValidated env f f false 0 := by
      dsimp only [handlePOST]
      rw [if_neg hne, h2]
      dsimp only [handleWithFile]
      rw [if_neg (by simp [h3])]
    have hval : handleValidated env f f false 0 =
        handleUploaded env (if f.name = "" then "audio-file" else f.name)
          u f 0 1 := by
      dsimp only [handleValidated]
      rw [if_neg (by simp [h3]), if_neg (by omega), if_neg (by simp), hu]
    rw [hpost, hval]
    exact handleUploaded_dichotomy env _ u f 0 1 h5 h6 herr htr
  · intro h2 h3 h4 e he
    have hpost : handlePOST env = handleValidated env f f false 0 := by
      dsimp only [handlePOST]
      rw [if_neg hne, h2]
      dsimp only [handleWithFile]
      rw [if_neg (by simp [h3])]
    have hval : handleValidated env f f false 0 =
        catchReturn env { uploadResult := none, recorded := false, records := [] }
          (if f.name = "" then "audio-file" else f.name) e 0 1 0 := by
      dsimp only [handleValidated]
      rw [if_neg (by simp [h3]), if_neg (by omega), if_neg (by simp), he]
    rw [hpost, hval]
    dsimp only [catchReturn, recordUpload]
    rw [if_neg (by simp [h5])]
    exact ⟨rfl, rfl⟩
  · intro h2 h2b h2c h3 h4
    have hpost : handlePOST env = handleUploaded env
        (if f.name = "" then "audio-file" else f.name)
        { url := env.remoteUrl, key := deriveObjectKeyFromUrl env.remoteUrl }
        f 1 0 := by
      dsimp only [handlePOST]
      rw [if_neg hne, h2]
      dsimp only []
      rw [if_pos h2b, h2c]
      dsimp only [handleWithFile]
      rw [if_neg (by simp [h3])]
      dsimp only [handleValidated]
      rw [if_neg (by simp [h3]), if_neg (by omega), if_pos rfl]
    rw [hpost]
    exact handleUploaded_dichotomy env _ _ f 1 0 h5 h6 herr htr
  · intro h2 h2b e he
    have hpost : handlePOST env = catchReturn env
        { uploadResult := none, recorded := false, records := [] }
        "audio-file" e 1 0 0 := by
      dsimp only [handlePOST]
      rw [if_neg hne, h2]
      dsimp only []
      rw [if_pos h2b, he]
    rw [hpost]
    dsimp only [catchReturn, recordUpload]
    rw [if_neg (by simp [h5])]
    exact ⟨rfl, rfl⟩

/-- A ≤50MB audio upload whose OSS upload throws, history recording enabled
and the insert healthy: the attempt fails with 500 and writes no record. -/
def envC1 : RequestEnv :=
  { missingEnv := [], historyEnabled := true, userUuid := "u",
    fileEntry := some ⟨"a.mp3", "audio/mpeg", 1000⟩, remoteUrl := "",
    fetchRun := .netOk "" 0, videoTranscode := none, optimizeEnabled := true,
    optimizeThreshold := 15728640, optimizeTranscode := none,
    segmentEnabled := false, segmentMinSize := 18874368,
    segmentDuration := 600, segmentRun := .failure, segSize := fun _ => 0,
    uploadRun := .error "音频上传失败：500 Internal Server Error - boom",
    transcribeRun := .ok ⟨"hello", "apimart-whisper"⟩, insertOk := true }

/-- C1 counterexample: a 1000-byte `audio/mpeg` upload (≤50MB, classified
audio, history enabled, insert healthy) whose upload step throws produces a
failed attempt with zero history records — refuting "exactly one record is
written for the attempt, never neither". -/
theorem record_outcome_counterexample :
    isAudioFile ⟨"a.mp3", "audio/mpeg", 1000⟩ = true ∧
    (1000 : Nat) ≤ MAX_FILE_SIZE ∧
    envC1.historyEnabled = true ∧ envC1.insertOk = true ∧
    (handlePOST envC1).resp.status = 500 ∧
    (handlePOST envC1).records = [] := by
  exact ⟨rfl, by norm_num [MAX_FILE_SIZE], rfl, rfl, rfl, rfl⟩

/-- Same request as `envC1` but with the OSS upload succeeding. -/
def envC1ok : RequestEnv :=
  { missingEnv := [], historyEnabled := true, userUuid := "u",
    fileEntry := some ⟨"a.mp3", "audio/mpeg", 1000⟩, remoteUrl := "",
    fetchRun := .netOk "" 0, videoTranscode := none, optimizeEnabled := true,
    optimizeThreshold := 15728640, optimizeTranscode := none,
    segmentEnabled := false, segmentMinSize := 18874368,
    segmentDuration := 600, segmentRun := .failure, segSize := fun _ => 0,
    uploadRun := .ok ⟨"https://bucket.example/key", "key"⟩,
    transcribeRun := .ok ⟨"hello", "apimart-whisper"⟩, insertOk := true }

/-- A remote `fileUrl` request whose fetch returns a 1000-byte audio file. -/
def envC1url : RequestEnv :=
  { missingEnv := [], historyEnabled := true, userUuid := "u",
    fileEntry := none,
    remoteUrl := "https://files.example.com/audio/ok.mp3",
    fetchRun := .netOk "audio/mpeg" 1000, videoTranscode := none,
    optimizeEnabled := true, optimizeThreshold := 15728640,
    optimizeTranscode := none, segmentEnabled := false,
    segmentMinSize := 18874368, segmentDuration := 600,
    segmentRun := .failure, segSize := fun _ => 0,
    uploadRun := .ok ⟨"https://bucket.example/key", "key"⟩,
    transcribeRun := .ok ⟨"hello", "apimart-whisper"⟩, insertOk := true }

/-- Concrete instances of `record_outcome_per_attempt`: the successful
direct upload and the successful remote link each write exactly one
`completed` record. -/
theorem record_outcome_per_attempt_witness :
    (∃ r, (handlePOST envC1ok).records = [r] ∧
      ((r.status = "completed" ∧ r.error_message = none ∧
        (handlePOST envC1ok).resp.status = 200 ∧
        (∃ t, envC1ok.transcribeRun = .ok t ∧ t.transcript ≠ "" ∧
          (handlePOST envC1ok).resp.body =
            .ok t.transcript t.vendor "https://bucket.example/key" "key")) ∨
       (r.status = "failed" ∧
        (∃ m, r.error_message = some m ∧ m ≠ "" ∧
          (handlePOST envC1ok).resp = { status := 500, body := .err m })))) ∧
    (∃ r, (handlePOST envC1url).records = [r] ∧
      ((r.status = "completed" ∧ r.error_message = none ∧
        (handlePOST envC1url).resp.status = 200 ∧
        (∃ t, envC1url.transcribeRun = .ok t ∧ t.transcript ≠ "" ∧
          (handlePOST envC1url).resp.body = .ok t.transcript t.vendor
            envC1url.remoteUrl (deriveObjectKeyFromUrl envC1url.remoteUrl))) ∨
       (r.status = "failed" ∧
        (∃ m, r.error_message = some m ∧ m ≠ "" ∧
          (handlePOST envC1url).resp = { status := 500, body := .err m })))) :=
  ⟨(record_outcome_per_attempt envC1ok ⟨"a.mp3", "audio/mpeg", 1000⟩ rfl rfl rfl
      (by intro e h; simp [envC1ok] at h)
      (by intro t h; simp only [envC1ok] at h;
          injection h with h2; subst h2; decide)).1
    rfl rfl (by norm_num [MAX_FILE_SIZE])
    ⟨"https://bucket.example/key", "key"⟩ rfl,
   (record_outcome_per_attempt envC1url ⟨"ok.mp3", "audio/mpeg", 1000⟩ rfl rfl rfl
      (by intro e h; simp [envC1url] at h)
      (by intro t h; simp only [envC1url] at h;
          injection h with h2; subst h2; decide)).2.2.1
    rfl (by decide) rfl rfl (by norm_num [MAX_FILE_SIZE])⟩

/-! ## Claim C5: the 50MB limit and remote fetches (amended) -/

/-- C5 (amended): the 50MB cap rejects oversized audio with HTTP 400 before
any upload or transcription for both input sources; for a remote `fileUrl`
the check runs only after the file has been fetched in full —
`fetchRemoteFile` itself accepts a body of any size. -/
theorem size_limit_both_sources (env : RequestEnv) (f : FileModel)
    (h1 : env.missingEnv = []) :
    (env.fileEntry = some f → isAudioFile f = true → MAX_FILE_SIZE < f.size →
      (handlePOST env).resp =
        { status := 400, body := .err "文件体积超出限制，请压缩到 50MB 以内再试。" } ∧
      (handlePOST env).records = [] ∧ (handlePOST env).uploads = 0 ∧
      (handlePOST env).transcribes = 0) ∧
    (env.fileEntry = none → env.remoteUrl ≠ "" →
      fetchRemoteFile env.remoteUrl env.fetchRun = .ok f →
      isAudioFile f = true → MAX_FILE_SIZE < f.size →
      (handlePOST env).resp =
        { status := 400, body := .err "文件体积超出限制，请压缩到 50MB 以内再试。" } ∧
      (handlePOST env).records = [] ∧ (handlePOST env).fetches = 1 ∧
      (handlePOST env).uploads = 0 ∧ (handlePOST env).transcribes = 0) ∧
    (∀ url ct sz, ∃ g, fetchRemoteFile url (.netOk ct sz) = .ok g ∧ g.size = sz) := by
  have hne : ¬ env.missingEnv ≠ [] := by simp [h1]
  refine ⟨?_, ?_, ?_⟩
  · intro h2 h3 h4
    dsimp only [handlePOST]
    rw [if_neg hne, h2]
    dsimp only [handleWithFile]
    rw [if_neg (by simp [h3])]
    dsimp only [handleValidated]
    rw [if_neg (by simp [h3]), if_pos h4]
    exact ⟨rfl, rfl, rfl, rfl⟩
  · intro h2 h2b h2c h3 h4
    dsimp only [handlePOST]
    rw [if_neg hne, h2]
    dsimp only []
    rw [if_pos h2b, h2c]
    dsimp only [handleWithFile]
    rw [if_neg (by simp [h3])]
    dsimp only [handleValidated]
    rw [if_neg (by simp [h3]), if_pos h4]
    exact ⟨rfl, rfl, rfl, rfl, rfl⟩
  · intro url ct sz
    exact ⟨_, rfl, rfl⟩

/-- A 60MB remote audio file: fetched in full, then rejected. -/
def envC5 : RequestEnv :=
  { missingEnv := [], historyEnabled := true, userUuid := "u",
    fileEntry := none, remoteUrl := "https://files.example.com/audio/big.mp3",
    fetchRun := .netOk "audio/mpeg" 62914560, videoTranscode := none,
    optimizeEnabled := true, optimizeThreshold := 15728640,
    optimizeTranscode := none, segmentEnabled := false,
    segmentMinSize := 18874368, segmentDuration := 600,
    segmentRun := .failure, segSize := fun _ => 0,
    uploadRun := .ok ⟨"https://bucket.example/key", "key"⟩,
    transcribeRun := .ok ⟨"hello", "apimart-whisper"⟩, insertOk := true }

/-- C5 counterexample: a 60MB file obtained from a remote `fileUrl` and
classified as audio is rejected with HTTP 400 for exceeding 50MB — refuting
"a file obtained from a remote fileUrl is never rejected for exceeding
50MB". -/
theorem remote_size_rejected_counterexample :
    fetchRemoteFile envC5.remoteUrl envC5.fetchRun =
      Except.ok ⟨"big.mp3", "audio/mpeg", 62914560⟩ ∧
    isAudioFile ⟨"big.mp3", "audio/mpeg", 62914560⟩ = true ∧
    MAX_FILE_SIZE < 62914560 ∧
    (handlePOST envC5).resp.status = 400 := by
  exact ⟨rfl, rfl, by norm_num [MAX_FILE_SIZE], rfl⟩

/-- Concrete instance of `size_limit_both_sources` at `envC5`. -/
theorem size_limit_both_sources_witness :
    (handlePOST envC5).resp =
      { status := 400, body := .err "文件体积超出限制，请压缩到 50MB 以内再试。" } ∧
    (handlePOST envC5).records = [] ∧ (handlePOST envC5).fetches = 1 ∧
    (handlePOST envC5).uploads = 0 ∧ (handlePOST envC5).transcribes = 0 :=
  (size_limit_both_sources envC5 ⟨"big.mp3", "audio/mpeg", 62914560⟩ rfl).2.1
    rfl (by decide) rfl rfl (by norm_num [MAX_FILE_SIZE])

/-! ## OSS request signing (claim C3)

SHA-1, HMAC-SHA1 and Base64 implemented over `Nat` byte lists, modelling
`createHmac("sha1", secret).update(s).digest("base64")`.  The 160-bit
digest is packed into a single `Nat` and the byte/Base64 views derive from
that packing. -/

def M32 : Nat := 4294967296

def rotl32 (n x : Nat) : Nat := ((x <<< n) ||| (x >>> (32 - n))) % M32

def sha1F (t b c d : Nat) : Nat :=
  if t < 20 then (b &&& c) ||| ((b ^^^ (M32 - 1)) &&& d)
  else if t < 40 then b ^^^ c ^^^ d
  else if t < 60 then (b &&& c) ||| (b &&& d) ||| (c &&& d)
  else b ^^^ c ^^^ d

def sha1K (t : Nat) : Nat :=
  if t < 20 then 0x5A827999 else if t < 40 then 0x6ED9EBA1
  else if t < 60 then 0x8F1BBCDC else 0xCA62C1D6

/-- Merkle–Damgård padding: `0x80`, zeros to 56 mod 64, 8-byte big-endian
bit length. -/
def sha1PadBytes (msg : List Nat) : List Nat :=
  let len := msg.length
  let z := (119 - len % 64) % 64
  msg ++ [0x80] ++ List.replicate z 0 ++
    (List.range 8).map (fun i => ((8 * len) >>> (8 * (7 - i))) % 256)

/-- The 16 big-endian 32-bit words of one 64-byte chunk. -/
def chunkWords (chunk : List Nat) : List Nat :=
  (List.range 16).map (fun j =>
    chunk.getD (4 * j) 0 * 16777216 + chunk.getD (4 * j + 1) 0 * 65536 +
    chunk.getD (4 * j + 2) 0 * 256 + chunk.getD (4 * j + 3) 0)

/-- Extend the 16 chunk words to the 80-word message schedule. -/
def sha1Schedule (w : List Nat) : List Nat :=
  (List.range 64).foldl (fun ws i =>
    ws ++ [rotl32 1 (ws.getD (i + 13) 0 ^^^ ws.getD (i + 8) 0 ^^^
      ws.getD (i + 2) 0 ^^^ ws.getD i 0)]) w

def sha1Round (ws : List Nat) (s : Nat × Nat × Nat × Nat × Nat) (t : Nat) :
    Nat × Nat × Nat × Nat × Nat :=
  let temp := (rotl32 5 s.1 + sha1F t s.2.1 s.2.2.1 s.2.2.2.1 + s.2.2.2.2 +
    sha1K t + ws.getD t 0) % M32
  (temp, s.1, rotl32 30 s.2.1, s.2.2.1, s.2.2.2.1)

def sha1Output (h s : Nat × Nat × Nat × Nat × Nat) :
    Nat × Nat × Nat × Nat × Nat :=
  ((h.1 + s.1) % M32, (h.2.1 + s.2.1) % M32, (h.2.2.1 + s.2.2.1) % M32,
   (h.2.2.2.1 + s.2.2.2.1) % M32, (h.2.2.2.2 + s.2.2.2.2) % M32)

def sha1Compress (h : Nat × Nat × Nat × Nat × Nat) (chunk : List Nat) :
    Nat × Nat × Nat × Nat × Nat :=
  sha1Output h ((List.range 80).foldl (sha1Round (sha1Schedule (chunkWords chunk))) h)

def sha1Init : Nat × Nat × Nat × Nat × Nat :=
  (0x67452301, 0xEFCDAB89, 0x98BADCFE, 0x10325476, 0xC3D2E1F0)

def packWords (s : Nat × Nat × Nat × Nat × Nat) : Nat :=
  s.1 * 2 ^ 128 + s.2.1 * 2 ^ 96 + s.2.2.1 * 2 ^ 64 + s.2.2.2.1 * 2 ^ 32 +
    s.2.2.2.2

/-- The SHA-1 digest as one 160-bit number (big-endian word packing). -/
def sha1Pack (msg : List Nat) : Nat :=
  packWords ((chunkArray (sha1PadBytes msg) 64).foldl sha1Compress sha1Init)

/-- The 20 big-endian digest bytes of a packed 160-bit value. -/
def bytesOfPack (p : Nat) : List Nat :=
  (List.range 20).map (fun i => (p >>> (8 * (19 - i))) % 256)

def sha1Bytes (msg : List Nat) : List Nat := bytesOfPack (sha1Pack msg)

def hmacSha1Pack (key msg : List Nat) : Nat :=
  let key0 := if 64 < key.length then sha1Bytes key else key
  let keyPadded := key0 ++ List.replicate (64 - key0.length) 0
  let ipad := keyPadded.map (fun b => b ^^^ 0x36)
  let opad := keyPadded.map (fun b => b ^^^ 0x5C)
  sha1Pack (opad ++ sha1Bytes (ipad ++ msg))

def hmacSha1 (key msg : List Nat) : List Nat := bytesOfPack (hmacSha1Pack key msg)

def base64Table : List Char :=
  "ABCDEFGHIJKLMNOPQRSTUVWXYZabcdefghijklmnopqrstuvwxyz0123456789+/".data

def base64Char (n : Nat) : Char := base64Table.getD n 'A'

def base64Encode : List Nat → List Char
  | [] => []
  | [a] => [base64Char (a >>> 2), base64Char ((a &&& 3) <<< 4), '=', '=']
  | [a, b] => [base64Char (a >>> 2), base64Char (((a &&& 3) <<< 4) ||| (b >>> 4)),
      base64Char ((b &&& 15) <<< 2), '=']
  | a :: b :: c :: rest =>
    base64Char (a >>> 2) :: base64Char (((a &&& 3) <<< 4) ||| (b >>> 4)) ::
    base64Char (((b &&& 15) <<< 2) ||| (c >>> 6)) :: base64Char (c &&& 63) ::
    base64Encode rest

def base64 (bytes : List Nat) : String := String.mk (base64Encode bytes)

/-- UTF-8 encoding of a string, as `hmac.update(string)` hashes it. -/
def utf8Bytes (s : String) : List Nat := (s.data.map charUtf8Bytes).flatten

/-- `base64(HMAC-SHA1(secret, canonicalString))` of `uploadToOSS`. -/
def signatureOSS (secret canonical : String) : String :=
  base64 (hmacSha1 (utf8Bytes secret) (utf8Bytes canonical))

/-- The `Authorization` header `OSS {accessKeyId}:{signature}`. -/
def authorizationOSS (accessKeyId secret canonical : String) : String :=
  "OSS " ++ accessKeyId ++ ":" ++ signatureOSS secret canonical

/-- The sorted, lowercased `x-oss-*` header lines of `uploadToOSS`. -/
def canonicalHeadersOSS (headers : List (String × String)) : String :=
  let ks := sortStrings ((headers.map Prod.fst).filter
    (fun k => strStartsWith (lowerStr k) "x-oss-"))
  joinSep "\n" (ks.map (fun k =>
    lowerStr k ++ ":" ++ (((headers.find? (fun h => h.1 = k)).map Prod.snd).getD "")))

/-- The canonical string `uploadToOSS` signs. -/
def canonicalStringOSS (contentType date : String)
    (headers : List (String × String)) (bucket key : String) : String :=
  let canonicalResource := "/" ++ bucket ++ "/" ++ key
  let ch := canonicalHeadersOSS headers
  joinSep "\n" ["PUT", "", contentType, date,
    if ch = "" then canonicalResource else ch ++ "\n" ++ canonicalResource]

theorem string_data_inj {a b : String} (h : a.data = b.data) : a = b := by
  cases a; cases b; exact congrArg String.mk h

theorem string_append_left_cancel {a b c : String} (h : a ++ b = a ++ c) :
    b = c := by
  have hd := congrArg String.data h
  simp only [String.data_append] at hd
  exact string_data_inj (List.append_cancel_left hd)

theorem string_append_right_cancel {a b c : String} (h : a ++ c = b ++ c) :
    a = b := by
  have hd := congrArg String.data h
  simp only [String.data_append] at hd
  exact string_data_inj (List.append_cancel_right hd)

theorem canonicalHeadersOSS_acl (acl : String) :
    canonicalHeadersOSS [("x-oss-object-acl", acl)] =
      "x-oss-object-acl:" ++ acl := rfl

theorem acl_header_ne_empty (acl : String) : "x-oss-object-acl:" ++ acl ≠ "" := by
  intro h
  have hd := congrArg String.data h
  simp [String.data_append] at hd

theorem canonicalStringOSS_ct_inj {ct ct2 d : String}
    {hs : List (String × String)} {b k : String}
    (h : canonicalStringOSS ct d hs b k = canonicalStringOSS ct2 d hs b k) :
    ct = ct2 := by
  have hd := congrArg String.data h
  simp only [canonicalStringOSS, joinSep, String.data_append,
    List.append_assoc] at hd
  exact string_data_inj (List.append_cancel_right
    (List.append_cancel_left (List.append_cancel_left
      (List.append_cancel_left (List.append_cancel_left hd)))))

theorem canonicalStringOSS_date_inj {ct d d2 : String}
    {hs : List (String × String)} {b k : String}
    (h : canonicalStringOSS ct d hs b k = canonicalStringOSS ct d2 hs b k) :
    d = d2 := by
  have hd := congrArg String.data h
  simp only [canonicalStringOSS, joinSep, String.data_append,
    List.append_assoc] at hd
  exact string_data_inj (List.append_cancel_right
    (List.append_cancel_left (List.append_cancel_left
      (List.append_cancel_left (List.append_cancel_left
        (List.append_cancel_left (List.append_cancel_left hd)))))))

theorem canonicalStringOSS_acl_inj {ct d acl acl2 b k : String}
    (h : canonicalStringOSS ct d [("x-oss-object-acl", acl)] b k =
      canonicalStringOSS ct d [("x-oss-object-acl", acl2)] b k) :
    acl = acl2 := by
  rw [canonicalStringOSS, canonicalStringOSS, canonicalHeadersOSS_acl,
    canonicalHeadersOSS_acl, if_neg (acl_header_ne_empty acl),
    if_neg (acl_header_ne_empty acl2)] at h
  have hd := congrArg String.data h
  simp only [joinSep, String.data_append, List.append_assoc] at hd
  exact string_data_inj (List.append_cancel_right
    (List.append_cancel_left (List.append_cancel_left
      (List.append_cancel_left (List.append_cancel_left
        (List.append_cancel_left (List.append_cancel_left
          (List.append_cancel_left (List.append_cancel_left hd)))))))))

/-! Bounding the packed digest for the pigeonhole argument. -/

def Word5Bound (s : Nat × Nat × Nat × Nat × Nat) : Prop :=
  s.1 < M32 ∧ s.2.1 < M32 ∧ s.2.2.1 < M32 ∧ s.2.2.2.1 < M32 ∧ s.2.2.2.2 < M32

theorem sha1Output_bound (h s : Nat × Nat × Nat × Nat × Nat) :
    Word5Bound (sha1Output h s) :=
  ⟨Nat.mod_lt _ (by norm_num [M32]), Nat.mod_lt _ (by norm_num [M32]),
   Nat.mod_lt _ (by norm_num [M32]), Nat.mod_lt _ (by norm_num [M32]),
   Nat.mod_lt _ (by norm_num [M32])⟩

theorem sha1Compress_bound (h : Nat × Nat × Nat × Nat × Nat)
    (chunk : List Nat) : Word5Bound (sha1Compress h chunk) := by
  rw [sha1Compress]
  exact sha1Output_bound h _

theorem foldl_sha1Compress_bound (l : List (List Nat))
    (s : Nat × Nat × Nat × Nat × Nat) (hb : Word5Bound s) :
    Word5Bound (l.foldl sha1Compress s) := by
  induction l generalizing s with
  | nil => exact hb
  | cons c rest ih =>
    rw [List.foldl_cons]
    exact ih _ (sha1Compress_bound _ _)

theorem packWords_lt (s : Nat × Nat × Nat × Nat × Nat) (hb : Word5Bound s) :
    packWords s < 2 ^ 160 := by
  obtain ⟨b1, b2, b3, b4, b5⟩ := hb
  unfold packWords
  have p128 : (2 : Nat) ^ 128 = 340282366920938463463374607431768211456 := by norm_num
  have p96 : (2 : Nat) ^ 96 = 79228162514264337593543950336 := by norm_num
  have p64 : (2 : Nat) ^ 64 = 18446744073709551616 := by norm_num
  have p32 : (2 : Nat) ^ 32 = 4294967296 := by norm_num
  have p160 : (2 : Nat) ^ 160 =
    1461501637330902918203684832716283019655932542976 := by norm_num
  rw [p128, p96, p64, p32, p160]
  unfold M32 at b1 b2 b3 b4 b5
  omega

theorem sha1Pack_lt (msg : List Nat) : sha1Pack msg < 2 ^ 160 :=
  packWords_lt _ (foldl_sha1Compress_bound _ _
    (by norm_num [Word5Bound, sha1Init, M32]))

theorem hmacSha1Pack_lt (key msg : List Nat) :
    hmacSha1Pack key msg < 2 ^ 160 := sha1Pack_lt _

/-- C3 (amended): the canonical string is exactly
`PUT \n <empty Content-MD5> \n Content-Type \n Date \n [x-oss lines \n]
/{bucket}/{key}`; the Authorization header is
`OSS {accessKeyId}:{base64(HMAC-SHA1(secret, canonicalString))}`; the
signature is a pure function of secret and canonical string; and changing
the Content-Type, the Date, or the value of the `x-oss-object-acl` header
(the rest fixed) changes the canonical string that is signed. -/
theorem canonical_signing (ct d id secret bucket key acl : String)
    (hs : List (String × String)) :
    (canonicalStringOSS ct d hs bucket key =
      "PUT" ++ "\n" ++ "\n" ++ ct ++ "\n" ++ d ++ "\n" ++
        (if canonicalHeadersOSS hs = "" then ""
         else canonicalHeadersOSS hs ++ "\n") ++ "/" ++ bucket ++ "/" ++ key) ∧
    canonicalHeadersOSS [("x-oss-object-acl", acl)] =
      "x-oss-object-acl:" ++ acl ∧
    authorizationOSS id secret (canonicalStringOSS ct d hs bucket key) =
      "OSS " ++ id ++ ":" ++
        signatureOSS secret (canonicalStringOSS ct d hs bucket key) ∧
    signatureOSS secret (canonicalStringOSS ct d hs bucket key) =
      base64 (hmacSha1 (utf8Bytes secret)
        (utf8Bytes (canonicalStringOSS ct d hs bucket key))) ∧
    (∀ s2 c2, secret = s2 →
      canonicalStringOSS ct d hs bucket key = c2 →
      signatureOSS secret (canonicalStringOSS ct d hs bucket key) =
        signatureOSS s2 c2) ∧
    (∀ ct2, ct ≠ ct2 → canonicalStringOSS ct d hs bucket key ≠
      canonicalStringOSS ct2 d hs bucket key) ∧
    (∀ d2, d ≠ d2 → canonicalStringOSS ct d hs bucket key ≠
      canonicalStringOSS ct d2 hs bucket key) ∧
    (∀ a2, acl ≠ a2 →
      canonicalStringOSS ct d [("x-oss-object-acl", acl)] bucket key ≠
        canonicalStringOSS ct d [("x-oss-object-acl", a2)] bucket key) := by
  refine ⟨?_, rfl, rfl, rfl, ?_, ?_, ?_, ?_⟩
  · by_cases hch : canonicalHeadersOSS hs = ""
    · rw [canonicalStringOSS, if_pos hch, if_pos hch]
      apply string_data_inj
      simp [joinSep, String.data_append]
    · rw [canonicalStringOSS, if_neg hch, if_neg hch]
      apply string_data_inj
      simp [joinSep, String.data_append]
  · intro s2 c2 h1 h2
    rw [h1, h2]
  · intro ct2 hne heq
    exact hne (canonicalStringOSS_ct_inj heq)
  · intro d2 hne heq
    exact hne (canonicalStringOSS_date_inj heq)
  · intro a2 hne heq
    exact hne (canonicalStringOSS_acl_inj heq)

/-- A repeated-`a` Content-Type of a given length, used to exhibit
infinitely many distinct header values. -/
def repA (n : Nat) : String := String.mk (List.replicate n 'a')

/-- The packed HMAC of the canonical string built from `repA n`, as an
element of the finite type `Fin (2 ^ 160)`. -/
def hmacFinOf (n : Nat) : Fin (2 ^ 160) :=
  ⟨hmacSha1Pack (utf8Bytes "secret")
    (utf8Bytes (canonicalStringOSS (repA n) "Thu, 01 Jan 2026 00:00:00 GMT"
      [] "bucket" "key")),
   hmacSha1Pack_lt _ _⟩

theorem repA_injective {n m : Nat} (h : repA n = repA m) : n = m := by
  have hd := congrArg String.data h
  simpa [repA] using congrArg List.length hd

/-- C3 counterexample: the signature is 160 bits wide while the header
values range over infinitely many strings, so by pigeonhole two different
Content-Type values share a signature — "changing any header included in
the canonical form changes the signature" is false for HMAC-SHA1 as a
universal statement. -/
theorem signature_collision_counterexample :
    ¬ ∀ ct1 ct2 : String, ct1 ≠ ct2 →
      signatureOSS "secret" (canonicalStringOSS ct1
        "Thu, 01 Jan 2026 00:00:00 GMT" [] "bucket" "key") ≠
      signatureOSS "secret" (canonicalStringOSS ct2
        "Thu, 01 Jan 2026 00:00:00 GMT" [] "bucket" "key") := by
  intro hall
  obtain ⟨n, m, hnm, heq⟩ := Finite.exists_ne_map_eq_of_infinite hmacFinOf
  have hval : hmacSha1Pack (utf8Bytes "secret")
      (utf8Bytes (canonicalStringOSS (repA n) "Thu, 01 Jan 2026 00:00:00 GMT"
        [] "bucket" "key")) =
      hmacSha1Pack (utf8Bytes "secret")
      (utf8Bytes (canonicalStringOSS (repA m) "Thu, 01 Jan 2026 00:00:00 GMT"
        [] "bucket" "key")) := congrArg Fin.val heq
  have hsig : signatureOSS "secret" (canonicalStringOSS (repA n)
      "Thu, 01 Jan 2026 00:00:00 GMT" [] "bucket" "key") =
      signatureOSS "secret" (canonicalStringOSS (repA m)
      "Thu, 01 Jan 2026 00:00:00 GMT" [] "bucket" "key") := by
    unfold signatureOSS hmacSha1
    exact congrArg (fun p => base64 (bytesOfPack p)) hval
  exact hall (repA n) (repA m) (fun h => hnm (repA_injective h)) hsig

/-- Concrete instance of `canonical_signing`: two distinct Content-Type
values give distinct canonical strings, and the lone `x-oss-object-acl`
header canonicalizes to its `name:value` line. -/
theorem canonical_signing_witness :
    canonicalStringOSS "audio/mpeg" "Thu, 01 Jan 2026 00:00:00 GMT" []
      "bucket" "key" ≠
    canonicalStringOSS "video/mp4" "Thu, 01 Jan 2026 00:00:00 GMT" []
      "bucket" "key" ∧
    canonicalHeadersOSS [("x-oss-object-acl", "public-read")] =
      "x-oss-object-acl:" ++ "public-read" :=
  ⟨(canonical_signing "audio/mpeg" "Thu, 01 Jan 2026 00:00:00 GMT" "id"
      "secret" "bucket" "key" "public-read" []).2.2.2.2.2.1 "video/mp4"
      (by decide),
   (canonical_signing "audio/mpeg" "Thu, 01 Jan 2026 00:00:00 GMT" "id"
      "secret" "bucket" "key" "public-read" []).2.1⟩

/-! ## Transcript normalization (`normalizeTranscriptText`) -/

/-- The fixed traditional→simplified character table of
`convertTraditionalToSimplified`. -/
def tradSimpMap : List (Char × Char) :=
  [('體', '体'), ('頭', '头'), ('鬧', '闹'), ('愛', '爱'), ('說', '说'),
   ('觀', '观'), ('視', '视'), ('願', '愿'), ('變', '变'), ('讓', '让'),
   ('會', '会'), ('開', '开'), ('對', '对'), ('這', '这'), ('那', '那'),
   ('為', '为'), ('於', '于'), ('風', '风'), ('雲', '云'), ('課', '课'),
   ('將', '将'), ('夢', '梦'), ('餘', '余'), ('電', '电'), ('錄', '录'),
   ('樂', '乐'), ('醫', '医')]

def mapTradChar (c : Char) : Char :=
  match tradSimpMap.find? (fun p => p.1 = c) with
  | some p => p.2
  | none => c

/-- `input.replace(/./g, char => map[char] ?? char)`: a character-wise map
(the dot regex skips newlines, which the table maps to themselves anyway). -/
def convertTraditionalToSimplified (s : String) : String :=
  String.mk (s.data.map mapTradChar)

/-- `normalizeTranscriptText`: identity unless the simplification flag is
on and the text is non-empty. -/
def normalizeTranscriptText (simplify : Bool) (text : String) : String :=
  if text = "" then text
  else if ¬ simplify then text
  else convertTraditionalToSimplified text

/-! ## The bounded-concurrency dispatcher (`transcribeSegments`, claim C2)

`transcribeSegments` runs `min(AUDIO_SEGMENT_CONCURRENCY, N)` worker loops
over a shared cursor.  JavaScript interleaves them only at `await` points;
the model below is more permissive (every statement is a separate step), so
its guarantees cover the real interleavings.  A worker claims `cursor++`
atomically, completes a segment after an arbitrary delay (`f i` is the
transcript the speech API returns for ordinal `i`), writes it at index `i`,
and loops; claiming past the end makes it stop. -/

inductive WStatus where
  | ready
  | working (i : Nat)
  | done
deriving DecidableEq, Repr

/-- Dispatcher state: the shared `cursor`, the ordered `results` slots, the
status of each worker, and a ghost counter of how often each ordinal was
claimed. -/
structure DState where
  cursor : Nat
  results : Nat → Option String
  workers : Nat → WStatus
  claimCount : Nat → Nat

/-- One interleaved step of a worker `w < k`: claim the next ordinal,
stop when the cursor is past the end, or finish the in-flight request. -/
inductive DStep (N k : Nat) (f : Nat → String) : DState → DState → Prop
  | claim (s : DState) (w : Nat) (hw : w < k) (hr : s.workers w = .ready)
      (hlt : s.cursor < N) :
    DStep N k f s
      { cursor := s.cursor + 1, results := s.results,
        workers := Function.update s.workers w (.working s.cursor),
        claimCount := Function.update s.claimCount s.cursor
          (s.claimCount s.cursor + 1) }
  | stop (s : DState) (w : Nat) (hw : w < k) (hr : s.workers w = .ready)
      (hge : N ≤ s.cursor) :
    DStep N k f s
      { cursor := s.cursor + 1, results := s.results,
        workers := Function.update s.workers w .done,
        claimCount := s.claimCount }
  | complete (s : DState) (w i : Nat) (hw : w < k)
      (hr : s.workers w = .working i) :
    DStep N k f s
      { cursor := s.cursor,
        results := Function.update s.results i (some (f i)),
        workers := Function.update s.workers w .ready,
        claimCount := s.claimCount }

def DInit : DState :=
  { cursor := 0, results := fun _ => none, workers := fun _ => .ready,
    claimCount := fun _ => 0 }

def DReach (N k : Nat) (f : Nat → String) : DState → Prop :=
  Relation.ReflTransGen (DStep N k f) DInit

def AllDone (k : Nat) (s : DState) : Prop := ∀ w, w < k → s.workers w = .done

/-- The dispatcher invariant: the ghost counter is 1 exactly below the
cursor (within range), every ordinal below the cursor is either finished in
its slot or held by exactly one worker, ordinals at or past the cursor are
untouched, and a finished worker implies the cursor has passed the end. -/
structure DInv (N k : Nat) (f : Nat → String) (s : DState) : Prop where
  claims_eq : ∀ i, s.claimCount i = if i < s.cursor ∧ i < N then 1 else 0
  res_claimed : ∀ i, i < s.cursor → i < N →
    (s.results i = some (f i) ∧ ∀ w, w < k → s.workers w ≠ .working i) ∨
    (s.results i = none ∧ ∃ w, w < k ∧ s.workers w = .working i ∧
      ∀ v, v < k → s.workers v = .working i → v = w)
  res_unclaimed : ∀ i, s.cursor ≤ i ∨ N ≤ i →
    s.results i = none ∧ ∀ w, w < k → s.workers w ≠ .working i
  done_cursor : ∀ w, w < k → s.workers w = .done → N ≤ s.cursor

theorem DInv_init (N k : Nat) (f : Nat → String) : DInv N k f DInit := by
  constructor
  · intro i; simp [DInit]
  · intro i hi _; simp [DInit] at hi
  · intro i _; simp [DInit]
  · intro w _ hw; simp [DInit] at hw

theorem DInv_step {N k : Nat} {f : Nat → String} {s t : DState}
    (hstep : DStep N k f s t) (hinv : DInv N k f s) : DInv N k f t := by
  cases hstep with
  | claim w hw hr hlt =>
    constructor
    · intro i
      dsimp only
      by_cases hic : i = s.cursor
      · subst hic
        rw [Function.update_same, hinv.claims_eq s.cursor,
          if_neg (by omega), if_pos ⟨by omega, hlt⟩]
      · rw [Function.update_noteq hic, hinv.claims_eq i]
        by_cases h2 : i < s.cursor ∧ i < N
        · rw [if_pos h2, if_pos ⟨by omega, h2.2⟩]
        · rw [if_neg h2, if_neg (by omega)]
    · intro i hi hiN
      dsimp only at hi ⊢
      by_cases hic : i = s.cursor
      · subst hic
        obtain ⟨hres, hno⟩ := hinv.res_unclaimed s.cursor (Or.inl le_rfl)
        right
        refine ⟨hres, w, hw, by rw [Function.update_same], ?_⟩
        intro v hv hvw
        by_cases hvweq : v = w
        · exact hvweq
        · rw [Function.update_noteq hvweq] at hvw
          exact absurd hvw (hno v hv)
      · have hi2 : i < s.cursor := by omega
        rcases hinv.res_claimed i hi2 hiN with ⟨hres, hno⟩ |
          ⟨hres, v0, hv0k, hv0, huniq⟩
        · left
          refine ⟨hres, ?_⟩
          intro v hv
          by_cases hvw : v = w
          · subst hvw
            rw [Function.update_same]
            intro hcontra
            injection hcontra with h3
            exact hic h3.symm
          · rw [Function.update_noteq hvw]
            exact hno v hv
        · right
          have hv0w : v0 ≠ w := by
            intro h3
            rw [h3, hr] at hv0
            simp at hv0
          refine ⟨hres, v0, hv0k, by rw [Function.update_noteq hv0w]; exact hv0, ?_⟩
          intro v hv hvw2
          by_cases hvw : v = w
          · subst hvw
            rw [Function.update_same] at hvw2
            injection hvw2 with h3
            exact absurd h3.symm hic
          · rw [Function.update_noteq hvw] at hvw2
            exact huniq v hv hvw2
    · intro i hcond
      dsimp only at hcond ⊢
      have hcond2 : s.cursor ≤ i ∨ N ≤ i := by omega
      obtain ⟨hres, hno⟩ := hinv.res_unclaimed i hcond2
      refine ⟨hres, ?_⟩
      intro v hv
      by_cases hvw : v = w
      · subst hvw
        rw [Function.update_same]
        intro hcontra
        injection hcontra with h3
        omega
      · rw [Function.update_noteq hvw]
        exact hno v hv
    · intro v hv hvd
      dsimp only at hvd ⊢
      by_cases hvw : v = w
      · subst hvw
        rw [Function.update_same] at hvd
        simp at hvd
      · rw [Function.update_noteq hvw] at hvd
        have := hinv.done_cursor v hv hvd
        omega
  | stop w hw hr hge =>
    constructor
    · intro i
      dsimp only
      rw [hinv.claims_eq i]
      by_cases h2 : i < N
      · rw [if_pos ⟨by omega, h2⟩, if_pos ⟨by omega, h2⟩]
      · rw [if_neg (by omega), if_neg (by omega)]
    · intro i hi hiN
      dsimp only at hi ⊢
      have hi2 : i < s.cursor := by omega
      rcases hinv.res_claimed i hi2 hiN with ⟨hres, hno⟩ |
        ⟨hres, v0, hv0k, hv0, huniq⟩
      · left
        refine ⟨hres, ?_⟩
        intro v hv
        by_cases hvw : v = w
        · subst hvw
          rw [Function.update_same]
          simp
        · rw [Function.update_noteq hvw]
          exact hno v hv
      · right
        have hv0w : v0 ≠ w := by
          intro h3
          rw [h3, hr] at hv0
          simp at hv0
        refine ⟨hres, v0, hv0k, by rw [Function.update_noteq hv0w]; exact hv0, ?_⟩
        intro v hv hvw2
        by_cases hvw : v = w
        · subst hvw
          rw [Function.update_same] at hvw2
          simp at hvw2
        · rw [Function.update_noteq hvw] at hvw2
          exact huniq v hv hvw2
    · intro i hcond
      dsimp only at hcond ⊢
      have hcond2 : s.cursor ≤ i ∨ N ≤ i := by omega
      obtain ⟨hres, hno⟩ := hinv.res_unclaimed i hcond2
      refine ⟨hres, ?_⟩
      intro v hv
      by_cases hvw : v = w
      · subst hvw
        rw [Function.update_same]
        simp
      · rw [Function.update_noteq hvw]
        exact hno v hv
    · intro v hv hvd
      dsimp only
      omega
  | complete w i0 hw hr =>
    have hheld : i0 < s.cursor ∧ i0 < N := by
      by_contra hcon
      exact (hinv.res_unclaimed i0 (by omega)).2 w hw hr
    obtain ⟨hres0, v0, hv0k, hv0, huniq⟩ :
        s.results i0 = none ∧ ∃ v, v < k ∧ s.workers v = .working i0 ∧
          ∀ u, u < k → s.workers u = .working i0 → u = v := by
      rcases hinv.res_claimed i0 hheld.1 hheld.2 with ⟨_, hno⟩ | h
      · exact absurd hr (hno w hw)
      · exact h
    constructor
    · intro i
      dsimp only
      exact hinv.claims_eq i
    · intro i hi hiN
      dsimp only at hi ⊢
      by_cases hii : i = i0
      · subst hii
        left
        refine ⟨by rw [Function.update_same], ?_⟩
        intro v hv
        by_cases hvw : v = w
        · subst hvw
          rw [Function.update_same]
          simp
        · rw [Function.update_noteq hvw]
          intro hcontra
          exact hvw ((huniq v hv hcontra).trans (huniq w hw hr).symm)
      · rcases hinv.res_claimed i hi hiN with ⟨hres, hno⟩ |
          ⟨hres, v1, hv1k, hv1, huniq1⟩
        · left
          refine ⟨by rw [Function.update_noteq hii]; exact hres, ?_⟩
          intro v hv
          by_cases hvw : v = w
          · subst hvw
            rw [Function.update_same]
            simp
          · rw [Function.update_noteq hvw]
            exact hno v hv
        · right
          have hv1w : v1 ≠ w := by
            intro h3
            rw [h3, hr] at hv1
            injection hv1 with h4
            exact hii h4.symm
          refine ⟨by rw [Function.update_noteq hii]; exact hres, v1, hv1k,
            by rw [Function.update_noteq hv1w]; exact hv1, ?_⟩
          intro v hv hvw2
          by_cases hvw : v = w
          · subst hvw
            rw [Function.update_same] at hvw2
            simp at hvw2
          · rw [Function.update_noteq hvw] at hvw2
            exact huniq1 v hv hvw2
    · intro i hcond
      dsimp only at hcond ⊢
      have hii : i ≠ i0 := by omega
      obtain ⟨hres, hno⟩ := hinv.res_unclaimed i hcond
      refine ⟨by rw [Function.update_noteq hii]; exact hres, ?_⟩
      intro v hv
      by_cases hvw : v = w
      · subst hvw
        rw [Function.update_same]
        simp
      · rw [Function.update_noteq hvw]
        exact hno v hv
    · intro v hv hvd
      dsimp only at hvd ⊢
      by_cases hvw : v = w
      · subst hvw
        rw [Function.update_same] at hvd
        simp at hvd
      · rw [Function.update_noteq hvw] at hvd
        exact hinv.done_cursor v hv hvd

theorem DReach_inv {N k : Nat} {f : Nat → String} {s : DState}
    (h : DReach N k f s) : DInv N k f s := by
  induction h with
  | refl => exact DInv_init N k f
  | tail _ hstep ih => exact DInv_step hstep ih

/-- Every maximal run of the worker pool claims each ordinal exactly once
and fills every result slot with its own transcript. -/
theorem dispatcher_correct (N k : Nat) (f : Nat → String) (hk : 1 ≤ k)
    (s : DState) (hreach : DReach N k f s) (hdone : AllDone k s) :
    N ≤ s.cursor ∧ (∀ i, i < N → s.claimCount i = 1) ∧
    (∀ i, i < N → s.results i = some (f i)) := by
  have hinv := DReach_inv hreach
  have hcur : N ≤ s.cursor := hinv.done_cursor 0 hk (hdone 0 hk)
  refine ⟨hcur, ?_, ?_⟩
  · intro i hi
    rw [hinv.claims_eq i, if_pos ⟨by omega, hi⟩]
  · intro i hi
    rcases hinv.res_claimed i (by omega) hi with ⟨hres, _⟩ |
      ⟨_, v, hvk, hv, _⟩
    · exact hres
    · have hd := hdone v hvk
      rw [hv] at hd
      simp at hd

/-- The assembly after `Promise.all`: map slots to transcripts (empty for a
missing slot), drop empties, join with a blank line, normalize. -/
def finalTranscript (simplify : Bool) (N : Nat)
    (results : Nat → Option String) : String :=
  normalizeTranscriptText simplify
    (joinSep "\n\n" (((List.range N).map
      (fun i => (results i).getD "")).filter (fun t => t != "")))

theorem convert_append (a b : String) :
    convertTraditionalToSimplified (a ++ b) =
      convertTraditionalToSimplified a ++ convertTraditionalToSimplified b := by
  apply string_data_inj
  simp [convertTraditionalToSimplified, String.data_append]

theorem normalize_false (x : String) : normalizeTranscriptText false x = x := by
  unfold normalizeTranscriptText
  split
  · rfl
  · rfl

theorem convert_joinSep_fixed (l : List String)
    (hfix : ∀ x ∈ l, convertTraditionalToSimplified x = x) :
    convertTraditionalToSimplified (joinSep "\n\n" l) = joinSep "\n\n" l := by
  induction l with
  | nil => rfl
  | cons x xs ih =>
    cases xs with
    | nil => exact hfix x (by simp)
    | cons y ys =>
      rw [joinSep, convert_append, convert_append,
        hfix x (by simp),
        show convertTraditionalToSimplified "\n\n" = "\n\n" from rfl,
        ih (fun z hz => hfix z (by simp [hz, List.mem_cons]))]

theorem normalize_joinSep (simplify : Bool) (l : List String)
    (hfix : ∀ x ∈ l, normalizeTranscriptText simplify x = x)
    (hne : ∀ x ∈ l, x ≠ "") :
    normalizeTranscriptText simplify (joinSep "\n\n" l) = joinSep "\n\n" l := by
  cases simplify with
  | false => exact normalize_false _
  | true =>
    unfold normalizeTranscriptText
    split
    · rfl
    · rw [if_neg (by simp)]
      apply convert_joinSep_fixed
      intro x hx
      have h1 := hfix x hx
      unfold normalizeTranscriptText at h1
      rw [if_neg (hne x hx), if_neg (by simp)] at h1
      exact h1

/-- C2: for `N ≥ 2` segments dispatched by a pool of `k ≥ 1` workers over
the shared cursor, every maximal interleaving claims each ordinal exactly
once, and the returned transcript is the per-segment transcripts joined
with a blank line in ascending ordinal order, whatever the completion
order (`f i` being the non-empty, already-normalized transcript of
segment `i`, as `transcribeWithApimart` produces). -/
theorem transcribeSegments_ordinal_concat (N k : Nat) (f : Nat → String)
    (simplify : Bool) (_hN : 2 ≤ N) (hk : 1 ≤ k) (s : DState)
    (hreach : DReach N k f s) (hdone : AllDone k s)
    (hne : ∀ i, i < N → f i ≠ "")
    (hfix : ∀ i, i < N → normalizeTranscriptText simplify (f i) = f i) :
    (∀ i, i < N → s.claimCount i = 1) ∧
    finalTranscript simplify N s.results =
      joinSep "\n\n" ((List.range N).map f) := by
  obtain ⟨hcur, hclaims, hres⟩ := dispatcher_correct N k f hk s hreach hdone
  refine ⟨hclaims, ?_⟩
  unfold finalTranscript
  have hmap : (List.range N).map (fun i => (s.results i).getD "") =
      (List.range N).map f := by
    apply List.map_congr_left
    intro i hi
    rw [hres i (List.mem_range.mp hi)]
    rfl
  rw [hmap]
  have hfilter : ((List.range N).map f).filter (fun t => t != "") =
      (List.range N).map f := by
    rw [List.filter_eq_self]
    intro a ha
    obtain ⟨i, hi, rfl⟩ := List.mem_map.mp ha
    simpa using hne i (List.mem_range.mp hi)
  rw [hfilter]
  apply normalize_joinSep
  · intro x hx
    obtain ⟨i, hi, rfl⟩ := List.mem_map.mp hx
    exact hfix i (List.mem_range.mp hi)
  · intro x hx
    obtain ⟨i, hi, rfl⟩ := List.mem_map.mp hx
    exact hne i (List.mem_range.mp hi)

/-- The transcripts of the two-segment witness run. -/
def dW (i : Nat) : String := if i = 0 then "a" else "b"

/-- The final state of a complete one-worker run over two segments. -/
def dFinal : DState :=
  { cursor := 3,
    results := Function.update (Function.update (fun _ => none) 0
      (some (dW 0))) 1 (some (dW 1)),
    workers := Function.update (Function.update (Function.update
      (Function.update (Function.update (fun _ => WStatus.ready) 0
        (WStatus.working 0)) 0 WStatus.ready) 0 (WStatus.working 1)) 0
        WStatus.ready) 0 WStatus.done,
    claimCount := Function.update (Function.update (fun _ => 0) 0 1) 1 1 }

theorem dFinal_reach : DReach 2 1 dW dFinal := by
  refine Relation.ReflTransGen.tail (Relation.ReflTransGen.tail
    (Relation.ReflTransGen.tail (Relation.ReflTransGen.tail
      (Relation.ReflTransGen.tail Relation.ReflTransGen.refl
        (DStep.claim DInit 0 (by norm_num) rfl (by decide)))
      (DStep.complete _ 0 0 (by norm_num) (by rfl)))
    (DStep.claim _ 0 (by norm_num) (by rfl) (by decide)))
    (DStep.complete _ 0 1 (by norm_num) (by rfl)))
    (DStep.stop _ 0 (by norm_num) (by rfl) (by decide))

/-- Concrete instance of `transcribeSegments_ordinal_concat`: the
one-worker, two-segment run claims each ordinal once and returns the
ordinal-ordered concatenation. -/
theorem transcribeSegments_ordinal_concat_witness :
    (∀ i, i < 2 → dFinal.claimCount i = 1) ∧
    finalTranscript false 2 dFinal.results =
      joinSep "\n\n" ((List.range 2).map dW) :=
  transcribeSegments_ordinal_concat 2 1 dW false (by norm_num) (by norm_num)
    dFinal dFinal_reach (by intro w hw; interval_cases w; rfl)
    (by intro i hi; interval_cases i <;> decide)
    (fun i _ => normalize_false (dW i))

/-! ## The POST /summarize (trial-summarize) route, claim C9 -/

/-- `String.prototype.trim` (ASCII whitespace; the transcripts involved
are covered by `Char.isWhitespace`). -/
def jsTrim (s : String) : String :=
  String.mk ((s.data.dropWhile Char.isWhitespace).rdropWhile Char.isWhitespace)

inductive SupportedLang where
  | zh
  | en
deriving DecidableEq, Repr

/-- `/[一-龥]/.test(transcript)`. -/
def detectLanguage (transcript : String) : SupportedLang :=
  if transcript.data.any
      (fun c => decide (0x4e00 ≤ c.toNat) && decide (c.toNat ≤ 0x9fa5))
  then .zh else .en

/-- The per-language copy table `FALLBACK_COPY`. -/
structure FallbackCopy where
  warning : String
  introHeading : String
  introGuide : String
  keypointHeading : String
  keypointTitle : Nat → String
  keypointCore : String
  keypointQuote : String
  keypointWhy : String
  keypointWhyTail : String
  themeHeading : String
  themeCore : String
  themeStory : String
  themeAction : String
  themeQuote : String
  cardHeading : String
  cardColumns : List String
  metaHeading : String
  metaBullets : List String

def zhCopy : FallbackCopy :=
  { warning := "⚠️ 暂时无法连接 APIMart，以下为本地快速提炼，仅供预览，请稍后重试以生成正式版摘要。"
    introHeading := "## 第一部分：核心主题"
    introGuide := "该版本依据本地规则粗略提炼，涵盖录音中的主线与目标，最终结果可能与正式模型存在差异。"
    keypointHeading := "## 第二部分：核心观点提炼"
    keypointTitle := fun index => "【关键洞察 " ++ toString (index + 1) ++ "】"
    keypointCore := "核心思想："
    keypointQuote := "金句："
    keypointWhy := "为什么重要："
    keypointWhyTail := "该信息在原文中出现频繁，是推动讨论的关键依据。"
    themeHeading := "## 第三部分：主题式详细拆解"
    themeCore := "核心论点："
    themeStory := "案例/情节："
    themeAction := "可操作建议："
    themeQuote := "相关金句："
    cardHeading := "## 第四部分：可视化知识卡片（参考）"
    cardColumns := ["步骤", "行动", "提示"]
    metaHeading := "## 第五部分：元分析"
    metaBullets :=
      ["识别：抓取高频词与连续语义组成核心主题。",
       "删减：去除问候、停顿、重复措辞和明显离题内容。",
       "保留：保留带情绪色彩或数据信息的句子以支撑观点。",
       "质量：由于为离线推断，建议使用 AI 模型重新生成以获得更丰富的推理。"] }

def enCopy : FallbackCopy :=
  { warning := "⚠️ Unable to reach APIMart. Generated a lightweight local summary for preview. Please retry later for the full AI output."
    introHeading := "## Part 1: Core Theme"
    introGuide := "This snapshot is produced locally and only captures the major storyline and goal. The official AI model will provide richer reasoning once the network is available."
    keypointHeading := "## Part 2: Key Insights"
    keypointTitle := fun index => "【Insight " ++ toString (index + 1) ++ "】"
    keypointCore := "Core idea: "
    keypointQuote := "Quote: "
    keypointWhy := "Why it matters: "
    keypointWhyTail := "This sentence surfaced multiple times and drives the conversation forward."
    themeHeading := "## Part 3: Thematic Deep Dive"
    themeCore := "Main argument: "
    themeStory := "Supporting story: "
    themeAction := "Actionable advice: "
    themeQuote := "Signature quote: "
    cardHeading := "## Part 4: Knowledge Cards"
    cardColumns := ["Step", "Action", "Key note"]
    metaHeading := "## Part 5: Meta Analysis"
    metaBullets :=
      ["Signals: detected high-frequency words and glued them as the storyline.",
       "Trimmed: removed greetings, fillers, and obvious tangents.",
       "Kept: preserved sentences with data or emotions to keep the tone.",
       "Quality: this is a lightweight reconstruction; rerun with the AI model for production-ready insight."] }

def fallbackCopy : SupportedLang → FallbackCopy
  | .zh => zhCopy
  | .en => enCopy

def sentenceDelims : SupportedLang → List Char
  | .zh => ['。', '！', '？']
  | .en => ['.', '!', '?']

/-- `line.split(/(?<=[delims])/)`: split after each delimiter, keeping the
delimiter attached to the preceding piece (a trailing empty piece may
appear here; the caller trims and filters it away, as JS produces none). -/
def splitAfterDelims (delims : List Char) (acc : List Char) :
    List Char → List (List Char)
  | [] => [acc.reverse]
  | c :: rest =>
    if c ∈ delims then (c :: acc).reverse :: splitAfterDelims delims [] rest
    else splitAfterDelims delims (c :: acc) rest

/-- Per-line sentence extraction of `splitSentences`. -/
def sentencesOfLine (delims : List Char) (line : String) : List String :=
  let parts := ((splitAfterDelims delims [] line.data).map
    (fun l => jsTrim (String.mk l))).filter (fun s => s != "")
  if parts.isEmpty then [line] else parts

/-- `splitSentences`: carriage returns become newlines, lines are trimmed
and dropped when blank, then split into delimiter-terminated sentences. -/
def splitSentences (transcript : String) (lang : SupportedLang) :
    List String :=
  let lines := ((splitOnChar '\n'
    (transcript.data.map (fun c => if c = '\r' then '\n' else c))).map
      (fun l => jsTrim (String.mk l))).filter (fun s => s != "")
  (lines.map (sentencesOfLine (sentenceDelims lang))).flatten

def truncateSentence (text : String) (maxLength : Nat) : String :=
  if text.data.length ≤ maxLength then text
  else String.mk (text.data.take maxLength) ++ "…"

/-- The thirteen building blocks of `buildLocalSummary`, in source order,
before the `filter(Boolean).join("\n\n")`. -/
def summaryParts (transcript : String) : List String :=
  let lang := detectLanguage transcript
  let copy := fallbackCopy lang
  let sentences := splitSentences transcript lang
  let sentencesToUse := if sentences.isEmpty then
      [String.mk (transcript.data.take 200)] else sentences
  let summaryText := joinSep (if lang = .zh then "" else " ")
    (sentencesToUse.take 6)
  let keyPointCount := min 6 sentencesToUse.length
  let keyPoints := joinSep "\n\n" ((sentencesToUse.take keyPointCount).enum.map
    (fun p =>
      let clipped := truncateSentence p.2 160
      copy.keypointTitle p.1 ++ "\n" ++ copy.keypointCore ++ clipped ++ "\n" ++
        copy.keypointQuote ++ "“" ++ clipped ++ "”" ++ "\n" ++
        copy.keypointWhy ++ copy.keypointWhyTail))
  let themeChunks := (chunkArray (sentencesToUse.drop keyPointCount) 3).take 3
  let themes := joinSep "\n\n" (themeChunks.enum.map (fun p =>
    let chunk := p.2.map (fun item => truncateSentence item 200)
    let quote := match p.2.head? with
      | some c0 => if c0 = "" then "-" else "“" ++ truncateSentence c0 80 ++ "”"
      | none => "-"
    "### " ++ (if lang = .zh then "主题 " else "Theme ") ++
      toString (p.1 + 1) ++ "\n" ++ copy.themeCore ++ chunk.getD 0 "-" ++
      "\n" ++ copy.themeStory ++ chunk.getD 1 "-" ++ "\n" ++
      copy.themeAction ++ chunk.getD 2 "-" ++ "\n" ++ copy.themeQuote ++ quote))
  let cardRows := joinSep "\n" (((chunkArray sentencesToUse 3).take 3).enum.map
    (fun p =>
      let stepLabel := (if lang = .zh then "步骤 " else "Step ") ++
        toString (p.1 + 1)
      "| " ++ stepLabel ++ " | " ++ truncateSentence (p.2.getD 0 "-") 120 ++
        " | " ++ truncateSentence
          (if p.2.getD 1 "-" = "" then p.2.getD 2 "-" else p.2.getD 1 "-") 120 ++
        " |"))
  let metaBullets := joinSep "\n" (copy.metaBullets.map (fun line => "- " ++ line))
  [copy.introHeading, copy.introGuide, summaryText, copy.keypointHeading,
   keyPoints, copy.themeHeading, if themes = "" then "-" else themes,
   copy.cardHeading, "| " ++ joinSep " | " copy.cardColumns ++ " |",
   "| " ++ joinSep " | " (copy.cardColumns.map (fun _ => "---")) ++ " |",
   if cardRows = "" then "| - | - | - |" else cardRows,
   copy.metaHeading, metaBullets]

def buildLocalSummary (transcript : String) : String :=
  joinSep "\n\n" ((summaryParts transcript).filter (fun s => s != ""))

/-- Outcome of the upstream chat-completions call: `throws` for a network
error or an unparsable JSON body (both land in the route's catch),
otherwise the response's status, ok-flag, `error.message`, and the
content `extractMessageContent` yields. -/
inductive UpstreamOutcome where
  | throws
  | response (status : Nat) (ok : Bool) (errMsg : Option String)
      (content : String)
deriving DecidableEq, Repr

structure SummarizeEnv where
  bodyOk : Bool
  transcript : Option String
  prompt : Option String
  apiKey : String
  upstream : UpstreamOutcome

inductive SBody where
  | summary (s : String)
  | fallback (s warning source : String)
  | err (e : String)
deriving DecidableEq, Repr

structure SResponse where
  status : Nat
  body : SBody
deriving DecidableEq, Repr

/-- `data?.error?.message || Upstream error (status).` -/
def upstreamErrorMessage (st : Nat) (errMsg : Option String) : String :=
  match errMsg with
  | some m => if m = "" then "Upstream error (" ++ toString st ++ ")." else m
  | none => "Upstream error (" ++ toString st ++ ")."

/-- The `POST /trial-summarize` handler: JSON/transcript validation, API
key check, upstream call, and the local fallback on a thrown upstream
call. -/
def trialSummarizePOST (env : SummarizeEnv) : SResponse :=
  if ¬ env.bodyOk then { status := 400, body := .err "Invalid JSON payload." }
  else match env.transcript with
    | none => { status := 400, body := .err "Transcript is required." }
    | some t =>
      if t = "" then { status := 400, body := .err "Transcript is required." }
      else if jsTrim t = "" then
        { status := 400, body := .err "Transcript cannot be empty." }
      else if env.apiKey = "" then
        { status := 500, body := .err "APIMART_API_KEY is not configured." }
      else
        match env.upstream with
        | .throws =>
          { status := 200,
            body := .fallback (buildLocalSummary (jsTrim t))
              (fallbackCopy (detectLanguage (jsTrim t))).warning
              "local-fallback" }
        | .response st ok errMsg content =>
          if ¬ ok then
            { status := st, body := .err (upstreamErrorMessage st errMsg) }
          else if content = "" then
            { status := 502, body := .err "No content returned from the AI model." }
          else { status := 200, body := .summary content }

theorem str_empty_append (a : String) : "" ++ a = a := by
  apply string_data_inj
  simp [String.data_append, show ("" : String).data = [] from rfl]

theorem joinSep_mem_decomp (sep : String) (l : List String) (a : String)
    (ha : a ∈ l) : ∃ p q, joinSep sep l = p ++ a ++ q := by
  induction l with
  | nil => simp at ha
  | cons x xs ih =>
    rcases List.mem_cons.mp ha with rfl | hmem
    · cases xs with
      | nil =>
        refine ⟨"", "", ?_⟩
        apply string_data_inj
        simp [joinSep, String.data_append,
          show ("" : String).data = [] from rfl]
      | cons y ys =>
        refine ⟨"", sep ++ joinSep sep (y :: ys), ?_⟩
        apply string_data_inj
        simp [joinSep, String.data_append,
          show ("" : String).data = [] from rfl]
    · cases xs with
      | nil => simp at hmem
      | cons y ys =>
        obtain ⟨p, q, hpq⟩ := ih hmem
        refine ⟨x ++ sep ++ p, q, ?_⟩
        rw [joinSep, hpq]
        apply string_data_inj
        simp [String.data_append]

/-- The five section headings are members of the filtered parts list. -/
theorem summaryParts_heading_mem (t : String) :
    (fallbackCopy (detectLanguage t)).introHeading ∈
      (summaryParts t).filter (fun s => s != "") ∧
    (fallbackCopy (detectLanguage t)).keypointHeading ∈
      (summaryParts t).filter (fun s => s != "") ∧
    (fallbackCopy (detectLanguage t)).themeHeading ∈
      (summaryParts t).filter (fun s => s != "") ∧
    (fallbackCopy (detectLanguage t)).cardHeading ∈
      (summaryParts t).filter (fun s => s != "") ∧
    (fallbackCopy (detectLanguage t)).metaHeading ∈
      (summaryParts t).filter (fun s => s != "") := by
  have hne : (fallbackCopy (detectLanguage t)).introHeading ≠ "" ∧
      (fallbackCopy (detectLanguage t)).keypointHeading ≠ "" ∧
      (fallbackCopy (detectLanguage t)).themeHeading ≠ "" ∧
      (fallbackCopy (detectLanguage t)).cardHeading ≠ "" ∧
      (fallbackCopy (detectLanguage t)).metaHeading ≠ "" := by
    cases detectLanguage t
    · exact ⟨by decide, by decide, by decide, by decide, by decide⟩
    · exact ⟨by decide, by decide, by decide, by decide, by decide⟩
  refine ⟨?_, ?_, ?_, ?_, ?_⟩
  · exact List.mem_filter.mpr ⟨by dsimp only [summaryParts]; simp,
      by simpa using hne.1⟩
  · exact List.mem_filter.mpr ⟨by dsimp only [summaryParts]; simp,
      by simpa using hne.2.1⟩
  · exact List.mem_filter.mpr ⟨by dsimp only [summaryParts]; simp,
      by simpa using hne.2.2.1⟩
  · exact List.mem_filter.mpr ⟨by dsimp only [summaryParts]; simp,
      by simpa using hne.2.2.2.1⟩
  · exact List.mem_filter.mpr ⟨by dsimp only [summaryParts]; simp,
      by simpa using hne.2.2.2.2⟩

/-- The local summary contains each of the five section headings. -/
theorem buildLocalSummary_headings (t : String) :
    (∃ p q, buildLocalSummary t =
      p ++ (fallbackCopy (detectLanguage t)).introHeading ++ q) ∧
    (∃ p q, buildLocalSummary t =
      p ++ (fallbackCopy (detectLanguage t)).keypointHeading ++ q) ∧
    (∃ p q, buildLocalSummary t =
      p ++ (fallbackCopy (detectLanguage t)).themeHeading ++ q) ∧
    (∃ p q, buildLocalSummary t =
      p ++ (fallbackCopy (detectLanguage t)).cardHeading ++ q) ∧
    (∃ p q, buildLocalSummary t =
      p ++ (fallbackCopy (detectLanguage t)).metaHeading ++ q) := by
  obtain ⟨h1, h2, h3, h4, h5⟩ := summaryParts_heading_mem t
  exact ⟨joinSep_mem_decomp _ _ _ h1, joinSep_mem_decomp _ _ _ h2,
    joinSep_mem_decomp _ _ _ h3, joinSep_mem_decomp _ _ _ h4,
    joinSep_mem_decomp _ _ _ h5⟩

/-- C9: with a valid non-empty transcript and a configured API key, a
thrown upstream chat call yields HTTP 200 carrying the deterministic local
summary, a non-empty warning, and source `local-fallback`; the local
summary contains the five expected section headings. -/
theorem summarize_fallback_local (env : SummarizeEnv) (t : String)
    (h1 : env.bodyOk = true) (h2 : env.transcript = some t) (h3 : t ≠ "")
    (h4 : jsTrim t ≠ "") (h5 : env.apiKey ≠ "")
    (h6 : env.upstream = .throws) :
    trialSummarizePOST env =
      { status := 200,
        body := .fallback (buildLocalSummary (jsTrim t))
          (fallbackCopy (detectLanguage (jsTrim t))).warning
          "local-fallback" } ∧
    (fallbackCopy (detectLanguage (jsTrim t))).warning ≠ "" ∧
    ((∃ p q, buildLocalSummary (jsTrim t) =
      p ++ (fallbackCopy (detectLanguage (jsTrim t))).introHeading ++ q) ∧
     (∃ p q, buildLocalSummary (jsTrim t) =
      p ++ (fallbackCopy (detectLanguage (jsTrim t))).keypointHeading ++ q) ∧
     (∃ p q, buildLocalSummary (jsTrim t) =
      p ++ (fallbackCopy (detectLanguage (jsTrim t))).themeHeading ++ q) ∧
     (∃ p q, buildLocalSummary (jsTrim t) =
      p ++ (fallbackCopy (detectLanguage (jsTrim t))).cardHeading ++ q) ∧
     (∃ p q, buildLocalSummary (jsTrim t) =
      p ++ (fallbackCopy (detectLanguage (jsTrim t))).metaHeading ++ q)) := by
  refine ⟨?_, ?_, buildLocalSummary_headings (jsTrim t)⟩
  · simp [trialSummarizePOST, h1, h2, h3, h4, h5, h6]
  · cases detectLanguage (jsTrim t)
    · decide
    · decide

/-- A request environment for the concrete fallback scenario. -/
def envC9 : SummarizeEnv :=
  { bodyOk := true,
    transcript := some "Hello world. This is a test! Second line here?",
    prompt := none, apiKey := "k", upstream := .throws }

/-- Concrete instance of `summarize_fallback_local`. -/
theorem summarize_fallback_local_witness :
    trialSummarizePOST envC9 =
      { status := 200,
        body := .fallback
          (buildLocalSummary (jsTrim "Hello world. This is a test! Second line here?"))
          (fallbackCopy (detectLanguage
            (jsTrim "Hello world. This is a test! Second line here?"))).warning
          "local-fallback" } :=
  (summarize_fallback_local envC9
    "Hello world. This is a test! Second line here?" rfl rfl (by decide)
    (by decide) (by decide) rfl).1
